import Mathlib

/-!
AutBot: opponent fusion, perception history and the state dispatcher.

A shallow embedding of `src/app/object.c`, `src/app/input_history.c`,
`src/app/state_machine.c`, `src/app/state_search.c` and
`src/app/state_approach.c`, followed by theorems about the embedded functions.

Conventions of the embedding:

* C enumerations become inductive types whose constructors keep the C names.
* `uint16_t` values are natural numbers; an assignment to a `uint16_t`
  variable reduces the value modulo `2 ^ 16`.
* A function that mutates a structure through a pointer takes the structure
  and returns the new one.
* `ASSERT(0)` halts the robot: functions that may assert return
  `Except halt _`, where the `halt` records the asserting function and the
  data at that moment.
* `TRACE(...)` only writes diagnostics and is left out.
-/

namespace AutBot

/-! ## `object.c` -/

/-- Positions of `object_pos_e`, as named in `object.c` (the `_LEFT` and `_RIGHT`
positions occur only in the compiled-out side-sensor branches and in
`object_at_left` / `object_at_right`). -/
inductive object_pos_e
  | object_POS_NONE
  | object_POS_IMPOSSIBLE
  | object_POS_FRONT
  | object_POS_FRONT_LEFT
  | object_POS_FRONT_RIGHT
  | object_POS_FRONT_AND_FRONT_LEFT
  | object_POS_FRONT_AND_FRONT_RIGHT
  | object_POS_FRONT_ALL
  | object_POS_LEFT
  | object_POS_RIGHT
  deriving DecidableEq, Repr

/-- Range buckets of `object_range_e`. -/
inductive object_range_e
  | object_RANGE_NONE
  | object_RANGE_CLOSE
  | object_RANGE_MID
  | object_RANGE_FAR
  deriving DecidableEq, Repr

open object_pos_e object_range_e

/-- The C `struct object`. -/
structure object where
  position : object_pos_e
  range : object_range_e
  deriving DecidableEq, Repr

/-- What `vl53l0x_read_range_multiple` hands back: its result code (`0` is
success) and the three entries of `ranges` that `object_get` reads. -/
structure vl53l0x_read where
  result : Nat
  range_front : Nat
  range_front_left : Nat
  range_front_right : Nat
  deriving DecidableEq, Repr

/-- `#define RANGE_DETECT_THRESHOLD (600u)`, in millimetres. -/
def RANGE_DETECT_THRESHOLD : Nat := 600

/-- `#define INVALID_RANGE (UINT16_MAX)`. -/
def INVALID_RANGE : Nat := 65535

/-- `#define RANGE_CLOSE (100u)`, in millimetres. -/
def RANGE_CLOSE : Nat := 100

/-- `#define RANGE_MID (200u)`, in millimetres. -/
def RANGE_MID : Nat := 200

/-- Storing a value in a `uint16_t` variable. -/
def to_uint16 (n : Nat) : Nat := n % 2 ^ 16

/-- The `if` / `else if` chain of `object_get` (object.c lines 58-87): the
position and the value of the local `range`, which starts as `INVALID_RANGE`. -/
def object_get_fuse (range_front range_front_left range_front_right : Nat) :
    object_pos_e × Nat :=
  let front : Bool := decide (range_front < RANGE_DETECT_THRESHOLD)
  let front_left : Bool := decide (range_front_left < RANGE_DETECT_THRESHOLD)
  let front_right : Bool := decide (range_front_right < RANGE_DETECT_THRESHOLD)
  if front_left && front && front_right then
    (object_POS_FRONT_ALL,
      to_uint16 ((((range_front_left + range_front) / 2) + range_front_right) / 2))
  else if front_left && front_right then
    (object_POS_IMPOSSIBLE, INVALID_RANGE)
  else if front_left then
    if front then
      (object_POS_FRONT_AND_FRONT_LEFT, to_uint16 ((range_front_left + range_front) / 2))
    else
      (object_POS_FRONT_LEFT, range_front_left)
  else if front_right then
    if front then
      (object_POS_FRONT_AND_FRONT_RIGHT, to_uint16 ((range_front_right + range_front) / 2))
    else
      (object_POS_FRONT_RIGHT, range_front_right)
  else if front then
    (object_POS_FRONT, range_front)
  else
    (object_POS_NONE, INVALID_RANGE)

/-- The function `object_get` of `object.c`, as a function of what the ranging
read returned. -/
def object_get (r : vl53l0x_read) : object :=
  let obj : object := { position := object_POS_NONE, range := object_RANGE_NONE }
  if r.result ≠ 0 then
    obj
  else
    let fused := object_get_fuse r.range_front r.range_front_left r.range_front_right
    let obj : object := { obj with position := fused.1 }
    let range := fused.2
    if range = INVALID_RANGE then
      obj
    else if range < RANGE_CLOSE then
      { obj with range := object_RANGE_CLOSE }
    else if range < RANGE_MID then
      { obj with range := object_RANGE_MID }
    else
      { obj with range := object_RANGE_FAR }

/-- The function `object_detected` of `object.c`. -/
def object_detected (object : object) : Bool :=
  object.position != object_POS_NONE && object.position != object_POS_IMPOSSIBLE

/-- The function `object_at_left` of `object.c`. -/
def object_at_left (object : object) : Bool :=
  object.position == object_POS_LEFT || object.position == object_POS_FRONT_LEFT
    || object.position == object_POS_FRONT_AND_FRONT_LEFT

/-- The function `object_at_right` of `object.c`. -/
def object_at_right (object : object) : Bool :=
  object.position == object_POS_RIGHT || object.position == object_POS_FRONT_RIGHT
    || object.position == object_POS_FRONT_AND_FRONT_RIGHT

/-- The function `object_at_front` of `object.c`. -/
def object_at_front (object : object) : Bool :=
  object.position == object_POS_FRONT || object.position == object_POS_FRONT_ALL

/-- A successful ranging read with the given three samples. -/
def read_ok (front front_left front_right : Nat) : vl53l0x_read :=
  { result := 0, range_front := front, range_front_left := front_left,
    range_front_right := front_right }

/-- The spec's range bucketing: below 100 mm close, below 200 mm mid, otherwise far. -/
def spec_range_bucket (sample : Nat) : object_range_e :=
  if sample < 100 then object_RANGE_CLOSE
  else if sample < 200 then object_RANGE_MID
  else object_RANGE_FAR

/-- The spec's fused range sample for a detected position: the nested pairwise
average for front-all, the average of the side and the front sample for the two
front-and-side positions, and the single detected sample otherwise. -/
def spec_fused_sample (position : object_pos_e) (front front_left front_right : Nat) : Nat :=
  match position with
  | object_POS_FRONT_ALL => ((front_left + front) / 2 + front_right) / 2
  | object_POS_FRONT_AND_FRONT_LEFT => (front_left + front) / 2
  | object_POS_FRONT_AND_FRONT_RIGHT => (front_right + front) / 2
  | object_POS_FRONT_LEFT => front_left
  | object_POS_FRONT_RIGHT => front_right
  | _ => front

/-! ## Collaborators whose code is not among the sources -/

/-- Modelled from the spec: `line.h` is not among the sources. A line reading is
an enumeration with a "none" sentinel whose other values the core never
inspects; they are numbered here. -/
inductive line_e
  | LINE_NONE
  | LINE_AT (direction : Nat)
  deriving DecidableEq, Repr

/-- Modelled from the spec: `ir_remote.h` is not among the sources. A command is
an enumeration with a "none" sentinel; its other values are numbered here. -/
inductive ir_cmd_e
  | IR_CMD_NONE
  | IR_CMD (code : Nat)
  deriving DecidableEq, Repr

/-- Directions of `drive_dir_e` that the sources pass to `drive_set`; the header
is not among the sources, its remaining directions are numbered. -/
inductive drive_dir_e
  | DRIVE_DIR_FORWARD
  | DRIVE_DIR_ROTATE_LEFT
  | DRIVE_DIR_ROTATE_RIGHT
  | DRIVE_DIR_ARCTURN_WIDE_LEFT
  | DRIVE_DIR_ARCTURN_WIDE_RIGHT
  | DRIVE_DIR_OTHER (code : Nat)
  deriving DecidableEq, Repr

/-- Speeds of `drive_speed_e`: the sources use `DRIVE_SPEED_FAST` only. -/
inductive drive_speed_e
  | DRIVE_SPEED_FAST
  | DRIVE_SPEED_OTHER (code : Nat)
  deriving DecidableEq, Repr

open line_e ir_cmd_e drive_dir_e drive_speed_e

/-- A call made to the drive output or on the shared timer. The calls are kept
in the order they are made, so that issuing a command again or re-arming the
timer can be told from leaving them alone. -/
inductive collaborator_call
  | drive_set (dir : drive_dir_e) (speed : drive_speed_e)
  | timer_start (timeout_ms : Nat)
  | timer_clear
  deriving DecidableEq, Repr

/-- Modelled from the spec: `timer.h` is not among the sources. The timer is "a
single shared countdown armed with a duration in milliseconds": `none` is the
cleared timer, `some ms` a timer armed with `ms` milliseconds. -/
abbrev timer_t := Option Nat

/-- Modelled from the spec: `common/ring_buffer` is not among the sources. "Fixed
capacity N; put(item) overwrites the oldest entry once full; peek(offset)
returns the entry offset steps back from the most recently put item without
removing it; count() gives the size". The entries are kept newest first. -/
structure ring_buffer (α : Type) where
  size : Nat
  items : List α
  deriving DecidableEq, Repr

/-- Modelled from the spec: the number of stored entries. -/
def ring_buffer_count {α : Type} (rb : ring_buffer α) : Nat := rb.items.length

/-- Modelled from the spec: the buffer holds as many entries as its capacity. -/
def ring_buffer_full {α : Type} (rb : ring_buffer α) : Bool :=
  decide (rb.size ≤ ring_buffer_count rb)

/-- Modelled from the spec: `put` stores the item as the newest entry and, once
the buffer is full, overwrites (drops) the oldest one. -/
def ring_buffer_put {α : Type} (rb : ring_buffer α) (item : α) : ring_buffer α :=
  if ring_buffer_full rb then
    { rb with items := item :: rb.items.dropLast }
  else
    { rb with items := item :: rb.items }

/-- Modelled from the spec: the entry `offset` steps back from the most recently
put item; it exists for `offset < count`. -/
def ring_buffer_peek_head {α : Type} (rb : ring_buffer α) (offset : Nat)
    (h : offset < ring_buffer_count rb) : α :=
  rb.items.get ⟨offset, h⟩

/-! ## `input_history.c` -/

/-- The C `struct input`: one tick's perception snapshot. -/
structure input where
  object : object
  line : line_e
  deriving DecidableEq, Repr

/-- The function `input_equal` of `input_history.c`. -/
def input_equal (a b : input) : Bool :=
  a.line == b.line && a.object.position == b.object.position
    && a.object.range == b.object.range

/-- The function `input_history_save` of `input_history.c`. -/
def input_history_save (history : ring_buffer input) (inp : input) : ring_buffer input :=
  if inp.object.position = object_POS_NONE ∧ inp.line = LINE_NONE then
    history
  else if h : ring_buffer_count history ≠ 0 then
    let last_input := ring_buffer_peek_head history 0 (Nat.pos_of_ne_zero h)
    if input_equal inp last_input then
      history
    else
      ring_buffer_put history inp
  else
    ring_buffer_put history inp

/-- The `for` loop of `input_history_last_directed_object`, entered at `offset`
with `todo` iterations left before `offset` reaches the count. The loop variable
is a `uint8_t`, so `offset++` is taken modulo `2 ^ 8`. -/
def input_history_scan (history : ring_buffer input) (offset : Nat) : Nat → object
  | 0 => { position := object_POS_NONE, range := object_RANGE_NONE }
  | todo + 1 =>
    if h : offset < ring_buffer_count history then
      let inp := ring_buffer_peek_head history offset h
      if object_at_left inp.object || object_at_right inp.object then
        inp.object
      else
        input_history_scan history ((offset + 1) % 2 ^ 8) todo
    else
      { position := object_POS_NONE, range := object_RANGE_NONE }

/-- The function `input_history_last_directed_object` of `input_history.c`: the
loop starts at offset 0 and, as long as the count fits the `uint8_t` loop
variable, makes at most `ring_buffer_count history` iterations. -/
def input_history_last_directed_object (history : ring_buffer input) : object :=
  input_history_scan history 0 (ring_buffer_count history)

/-! ## `state_machine.c`: types -/

/-- The top-level states of `state_e`, as named in the sources. -/
inductive state_e
  | STATE_WAIT
  | STATE_SEARCH
  | STATE_approach
  | STATE_RETREAT
  | STATE_MANUAL
  deriving DecidableEq, Repr

/-- The events of `state_event_e`, as named in the sources. -/
inductive state_event_e
  | STATE_EVENT_TIMEOUT
  | STATE_EVENT_LINE
  | STATE_EVENT_object
  | STATE_EVENT_FINISHED
  | STATE_EVENT_COMMAND
  | STATE_EVENT_NONE
  deriving DecidableEq, Repr

/-- The Search sub-states of `state_search.c`. -/
inductive search_state_e
  | SEARCH_STATE_ROTATE
  | SEARCH_STATE_FORWARD
  deriving DecidableEq, Repr

/-- The Approach sub-states of `state_approach.h`. -/
inductive approach_state_e
  | approach_STATE_FORWARD
  | approach_STATE_LEFT
  | approach_STATE_RIGHT
  deriving DecidableEq, Repr

open state_e state_event_e search_state_e approach_state_e

/-- The C `struct state_transition`; the fields `from` and `to` are written
`from_` and `to_`. -/
structure state_transition where
  from_ : state_e
  event : state_event_e
  to_ : state_e
  deriving DecidableEq, Repr

/-- The table `state_transitions` of `state_machine.c`, row by row. -/
def state_transitions : List state_transition :=
  [ ⟨STATE_WAIT, STATE_EVENT_NONE, STATE_WAIT⟩,
    ⟨STATE_WAIT, STATE_EVENT_LINE, STATE_WAIT⟩,
    ⟨STATE_WAIT, STATE_EVENT_object, STATE_WAIT⟩,
    ⟨STATE_WAIT, STATE_EVENT_COMMAND, STATE_SEARCH⟩,
    ⟨STATE_SEARCH, STATE_EVENT_NONE, STATE_SEARCH⟩,
    ⟨STATE_SEARCH, STATE_EVENT_TIMEOUT, STATE_SEARCH⟩,
    ⟨STATE_SEARCH, STATE_EVENT_object, STATE_approach⟩,
    ⟨STATE_SEARCH, STATE_EVENT_LINE, STATE_RETREAT⟩,
    ⟨STATE_SEARCH, STATE_EVENT_COMMAND, STATE_MANUAL⟩,
    ⟨STATE_approach, STATE_EVENT_object, STATE_approach⟩,
    ⟨STATE_approach, STATE_EVENT_LINE, STATE_RETREAT⟩,
    ⟨STATE_approach, STATE_EVENT_NONE, STATE_SEARCH⟩,
    ⟨STATE_approach, STATE_EVENT_COMMAND, STATE_MANUAL⟩,
    ⟨STATE_approach, STATE_EVENT_TIMEOUT, STATE_approach⟩,
    ⟨STATE_RETREAT, STATE_EVENT_LINE, STATE_RETREAT⟩,
    ⟨STATE_RETREAT, STATE_EVENT_FINISHED, STATE_SEARCH⟩,
    ⟨STATE_RETREAT, STATE_EVENT_TIMEOUT, STATE_RETREAT⟩,
    ⟨STATE_RETREAT, STATE_EVENT_object, STATE_RETREAT⟩,
    ⟨STATE_RETREAT, STATE_EVENT_NONE, STATE_RETREAT⟩,
    ⟨STATE_RETREAT, STATE_EVENT_COMMAND, STATE_MANUAL⟩,
    ⟨STATE_MANUAL, STATE_EVENT_COMMAND, STATE_MANUAL⟩,
    ⟨STATE_MANUAL, STATE_EVENT_NONE, STATE_MANUAL⟩,
    ⟨STATE_MANUAL, STATE_EVENT_LINE, STATE_MANUAL⟩,
    ⟨STATE_MANUAL, STATE_EVENT_object, STATE_MANUAL⟩ ]

/-- The value fields of the C `struct state_common_data`; its pointers (to the
timer, the input history and the enclosing data) are the fields of the same
name of `state_machine_data`. -/
structure state_common_data where
  object : object
  line : line_e
  cmd : ir_cmd_e
  deriving DecidableEq, Repr

/-- The C `struct state_search_data` without its `common` pointer. -/
structure state_search_data where
  state : search_state_e
  deriving DecidableEq, Repr

/-- The C `struct state_approach_data` without its `common` pointer. -/
structure state_approach_data where
  state : approach_state_e
  deriving DecidableEq, Repr

/-- Modelled from the spec: `state_retreat.h` is not among the sources. Retreat
"drives a fixed retreat maneuver"; `move_idx` counts the moves of the maneuver
that have timed out since the maneuver was started. -/
structure state_retreat_data where
  move_idx : Nat
  deriving DecidableEq, Repr

/-- The C `struct state_machine_data`. The Wait and Manual policies hold nothing
but the `common` pointer. `calls` is not a C field: it lists the calls made on
the drive output and the timer, oldest first. -/
structure state_machine_data where
  state : state_e
  common : state_common_data
  search : state_search_data
  approach : state_approach_data
  retreat : state_retreat_data
  internal_event : state_event_e
  timer : timer_t
  input_history : ring_buffer input
  calls : List collaborator_call
  deriving DecidableEq, Repr

/-- The function whose `ASSERT` stopped the robot. -/
inductive assert_site
  | in_process_event
  | in_take_internal_event
  | in_post_internal_event
  | in_state_search_enter
  | in_state_approach_enter
  | in_next_approach_state
  | in_state_wait_enter
  | in_state_retreat_enter
  | in_state_manual_enter
  deriving DecidableEq, Repr

/-- A failed `ASSERT`: where it failed and the data at that moment. -/
structure halt where
  site : assert_site
  data : state_machine_data
  deriving DecidableEq, Repr

open assert_site

/-- The result of a function that may `ASSERT`. -/
abbrev outcome := Except halt state_machine_data

/-- What one control-loop tick reads from the collaborators: the ranging read,
the line reading, the command, and whether an armed timer has run out. -/
structure tick_input where
  ranges : vl53l0x_read
  line : line_e
  cmd : ir_cmd_e
  timer_elapsed : Bool
  deriving DecidableEq, Repr

/-! ## Timer and drive calls -/

/-- Modelled from the spec: `timer_clear` disarms the countdown. -/
def timer_clear (data : state_machine_data) : state_machine_data :=
  { data with timer := none, calls := data.calls ++ [collaborator_call.timer_clear] }

/-- Modelled from the spec: `timer_start` arms the countdown with a duration in
milliseconds. -/
def timer_start (data : state_machine_data) (timeout_ms : Nat) : state_machine_data :=
  { data with timer := some timeout_ms,
              calls := data.calls ++ [collaborator_call.timer_start timeout_ms] }

/-- Modelled from the spec: `timer_timeout` polls whether the countdown has
elapsed; a cleared timer never has. -/
def timer_timeout (timer : timer_t) (timer_elapsed : Bool) : Bool :=
  timer.isSome && timer_elapsed

/-- The drive output accepts `(direction, speed)`, fire-and-forget. -/
def drive_set (data : state_machine_data) (dir : drive_dir_e) (speed : drive_speed_e) :
    state_machine_data :=
  { data with calls := data.calls ++ [collaborator_call.drive_set dir speed] }

/-! ## `state_machine.c`: the internal event slot -/

/-- The function `has_internal_event` of `state_machine.c`. -/
def has_internal_event (data : state_machine_data) : Bool :=
  data.internal_event != STATE_EVENT_NONE

/-- The function `take_internal_event` of `state_machine.c`. -/
def take_internal_event (data : state_machine_data) :
    Except halt (state_event_e × state_machine_data) :=
  if has_internal_event data then
    .ok (data.internal_event, { data with internal_event := STATE_EVENT_NONE })
  else
    .error ⟨in_take_internal_event, data⟩

/-- The function `state_machine_post_internal_event` of `state_machine.c`. -/
def state_machine_post_internal_event (data : state_machine_data) (event : state_event_e) :
    outcome :=
  if !has_internal_event data then
    .ok { data with internal_event := event }
  else
    .error ⟨in_post_internal_event, data⟩

/-! ## `state_search.c` -/

/-- `#define SEARCH_STATE_ROTATE_TIMEOUT (400u)`. -/
def SEARCH_STATE_ROTATE_TIMEOUT : Nat := 400

/-- `#define SEARCH_STATE_FORWARD_TIMEOUT (3000u)`. -/
def SEARCH_STATE_FORWARD_TIMEOUT : Nat := 3000

/-- The function `state_search_run` of `state_search.c`. -/
def state_search_run (data : state_machine_data) : state_machine_data :=
  match data.search.state with
  | SEARCH_STATE_ROTATE =>
    let last_object := input_history_last_directed_object data.input_history
    let data :=
      if object_at_right last_object then
        drive_set data DRIVE_DIR_ROTATE_RIGHT DRIVE_SPEED_FAST
      else
        drive_set data DRIVE_DIR_ROTATE_LEFT DRIVE_SPEED_FAST
    timer_start data SEARCH_STATE_ROTATE_TIMEOUT
  | SEARCH_STATE_FORWARD =>
    let data := drive_set data DRIVE_DIR_FORWARD DRIVE_SPEED_FAST
    timer_start data SEARCH_STATE_FORWARD_TIMEOUT

/-- The function `state_search_enter` of `state_search.c`. -/
def state_search_enter (data : state_machine_data) (from_ : state_e) (event : state_event_e) :
    outcome :=
  match from_ with
  | STATE_WAIT =>
    if event = STATE_EVENT_COMMAND then
      .ok (state_search_run data)
    else
      .error ⟨in_state_search_enter, data⟩
  | STATE_approach | STATE_RETREAT =>
    match event with
    | STATE_EVENT_NONE =>
      if from_ = STATE_approach then
        .ok (state_search_run data)
      else
        .error ⟨in_state_search_enter, data⟩
    | STATE_EVENT_FINISHED =>
      if from_ = STATE_RETREAT then
        let data :=
          if data.search.state = SEARCH_STATE_FORWARD then
            { data with search := { state := SEARCH_STATE_ROTATE } }
          else
            data
        .ok (state_search_run data)
      else
        .error ⟨in_state_search_enter, data⟩
    | STATE_EVENT_COMMAND | STATE_EVENT_TIMEOUT | STATE_EVENT_LINE | STATE_EVENT_object =>
      .error ⟨in_state_search_enter, data⟩
  | STATE_SEARCH =>
    match event with
    | STATE_EVENT_NONE => .ok data
    | STATE_EVENT_TIMEOUT =>
      let data :=
        match data.search.state with
        | SEARCH_STATE_ROTATE => { data with search := { state := SEARCH_STATE_FORWARD } }
        | SEARCH_STATE_FORWARD => { data with search := { state := SEARCH_STATE_ROTATE } }
      .ok (state_search_run data)
    | STATE_EVENT_FINISHED | STATE_EVENT_LINE | STATE_EVENT_object | STATE_EVENT_COMMAND =>
      .error ⟨in_state_search_enter, data⟩
  | STATE_MANUAL => .error ⟨in_state_search_enter, data⟩

/-- The function `state_search_init` of `state_search.c`. -/
def state_search_init : state_search_data := { state := SEARCH_STATE_ROTATE }

/-! ## `state_approach.c` -/

/-- `#define approach_STATE_TIMEOUT (5000u)`. -/
def approach_STATE_TIMEOUT : Nat := 5000

/-- The function `state_approach_run` of `state_approach.c`. -/
def state_approach_run (data : state_machine_data) : state_machine_data :=
  let data :=
    match data.approach.state with
    | approach_STATE_FORWARD => drive_set data DRIVE_DIR_FORWARD DRIVE_SPEED_FAST
    | approach_STATE_LEFT => drive_set data DRIVE_DIR_ARCTURN_WIDE_LEFT DRIVE_SPEED_FAST
    | approach_STATE_RIGHT => drive_set data DRIVE_DIR_ARCTURN_WIDE_RIGHT DRIVE_SPEED_FAST
  timer_start data approach_STATE_TIMEOUT

/-- The function `next_approach_state` of `state_approach.c`; `none` is its
`ASSERT(0)`. -/
def next_approach_state (object : object) : Option approach_state_e :=
  if object_at_front object then
    some approach_STATE_FORWARD
  else if object_at_left object then
    some approach_STATE_LEFT
  else if object_at_right object then
    some approach_STATE_RIGHT
  else
    none

/-- The function `state_approach_enter` of `state_approach.c`. -/
def state_approach_enter (data : state_machine_data) (from_ : state_e) (event : state_event_e) :
    outcome :=
  let prev_approach_state := data.approach.state
  match next_approach_state data.common.object with
  | none => .error ⟨in_next_approach_state, data⟩
  | some next =>
    let data := { data with approach := { state := next } }
    match from_ with
    | STATE_SEARCH =>
      match event with
      | STATE_EVENT_object => .ok (state_approach_run data)
      | STATE_EVENT_TIMEOUT | STATE_EVENT_LINE | STATE_EVENT_FINISHED | STATE_EVENT_COMMAND
      | STATE_EVENT_NONE => .error ⟨in_state_approach_enter, data⟩
    | STATE_approach =>
      match event with
      | STATE_EVENT_object =>
        if prev_approach_state ≠ data.approach.state then
          .ok (state_approach_run data)
        else
          .ok data
      | STATE_EVENT_TIMEOUT => .error ⟨in_state_approach_enter, data⟩
      | STATE_EVENT_LINE | STATE_EVENT_FINISHED | STATE_EVENT_COMMAND | STATE_EVENT_NONE =>
        .error ⟨in_state_approach_enter, data⟩
    | STATE_RETREAT => .error ⟨in_state_approach_enter, data⟩
    | STATE_WAIT | STATE_MANUAL => .error ⟨in_state_approach_enter, data⟩

/-- The function `state_approach_init` of `state_approach.c`. -/
def state_approach_init : state_approach_data := { state := approach_STATE_FORWARD }

/-! ## The policies whose code is not among the sources -/

/-- The entry actions of Wait, Retreat and Manual. `state_wait.c`,
`state_retreat.c` and `state_manual.c` are not among the sources, so the
dispatcher takes the three actions as a parameter. -/
structure state_policies where
  state_wait_enter : state_machine_data → state_e → state_event_e → outcome
  state_retreat_enter : state_machine_data → state_e → state_event_e → outcome
  state_manual_enter : state_machine_data → state_e → state_event_e → outcome

/-- One timed move of the retreat maneuver. -/
structure retreat_move where
  dir : drive_dir_e
  speed : drive_speed_e
  duration : Nat
  deriving DecidableEq, Repr

/-- Modelled from the spec: `state_wait.c` is not among the sources. "Any event
while in Wait is a no-op except command", and a command leaves Wait, so the
entry action of Wait does nothing. -/
def spec_state_wait_enter (data : state_machine_data) (_from : state_e)
    (_event : state_event_e) : outcome :=
  .ok data

/-- Modelled from the spec: the current move of the retreat maneuver is sent to
the drive output and the timer is armed with its duration. -/
def spec_retreat_move_start (maneuver : List retreat_move) (data : state_machine_data) :
    state_machine_data :=
  match maneuver.get? data.retreat.move_idx with
  | some move => timer_start (drive_set data move.dir move.speed) move.duration
  | none => data

/-- Modelled from the spec: `state_retreat.c` is not among the sources. Retreat
"drives a fixed retreat maneuver while line is detected; on maneuver completion
it posts the internal finished event (consumed next tick, routing back to
Search)"; "while state=Retreat, line and timeout events self-transition and keep
retreating; completion is signaled solely via the internally-posted finished
event". Here a line event (re)starts the maneuver, a timeout ends the current
move and either starts the next one or, after the last, posts
`STATE_EVENT_FINISHED`; an opponent or no event keeps retreating. -/
def spec_state_retreat_enter (maneuver : List retreat_move) (data : state_machine_data)
    (_from : state_e) (event : state_event_e) : outcome :=
  match event with
  | STATE_EVENT_LINE =>
    .ok (spec_retreat_move_start maneuver { data with retreat := { move_idx := 0 } })
  | STATE_EVENT_TIMEOUT =>
    let data := { data with retreat := { move_idx := data.retreat.move_idx + 1 } }
    if maneuver.length ≤ data.retreat.move_idx then
      state_machine_post_internal_event data STATE_EVENT_FINISHED
    else
      .ok (spec_retreat_move_start maneuver data)
  | STATE_EVENT_object | STATE_EVENT_NONE => .ok data
  | STATE_EVENT_FINISHED | STATE_EVENT_COMMAND => .error ⟨in_state_retreat_enter, data⟩

/-- Modelled from the spec: `state_manual.c` is not among the sources. Manual
"accepts command-driven drive overrides; any of none/line/opponent events while
in Manual are no-ops". `override` is the drive command, if any, that a remote
command stands for. -/
def spec_state_manual_enter (override : ir_cmd_e → Option (drive_dir_e × drive_speed_e))
    (data : state_machine_data) (_from : state_e) (event : state_event_e) : outcome :=
  if event = STATE_EVENT_COMMAND then
    match override data.common.cmd with
    | some (dir, speed) => .ok (drive_set data dir speed)
    | none => .ok data
  else
    .ok data

/-- Modelled from the spec: the three policies above, for a retreat maneuver and
a table of manual overrides. -/
def spec_policies (maneuver : List retreat_move)
    (override : ir_cmd_e → Option (drive_dir_e × drive_speed_e)) : state_policies :=
  { state_wait_enter := spec_state_wait_enter,
    state_retreat_enter := spec_state_retreat_enter maneuver,
    state_manual_enter := spec_state_manual_enter override }

/-! ## `state_machine.c`: the dispatcher and the control loop -/

/-- The function `state_enter` of `state_machine.c`. -/
def state_enter (policies : state_policies) (data : state_machine_data) (from_ : state_e)
    (event : state_event_e) (to_ : state_e) : outcome :=
  let data :=
    if from_ ≠ to_ then
      { timer_clear data with state := to_ }
    else
      data
  match to_ with
  | STATE_WAIT => policies.state_wait_enter data from_ event
  | STATE_SEARCH => state_search_enter data from_ event
  | STATE_approach => state_approach_enter data from_ event
  | STATE_RETREAT => policies.state_retreat_enter data from_ event
  | STATE_MANUAL => policies.state_manual_enter data from_ event

/-- The `for` loop of `process_event` over the rows still to be tried, followed
by its final `ASSERT(0)`. -/
def process_event_scan (policies : state_policies) (data : state_machine_data)
    (next_event : state_event_e) : List state_transition → outcome
  | [] => .error ⟨in_process_event, data⟩
  | row :: rest =>
    if data.state = row.from_ ∧ next_event = row.event then
      state_enter policies data row.from_ next_event row.to_
    else
      process_event_scan policies data next_event rest

/-- The function `process_event` of `state_machine.c`. -/
def process_event (policies : state_policies) (data : state_machine_data)
    (next_event : state_event_e) : outcome :=
  process_event_scan policies data next_event state_transitions

/-- The function `process_input` of `state_machine.c`: the classified event and
the data after the inputs were stored and the snapshot was recorded. -/
def process_input (data : state_machine_data) (inp : tick_input) :
    Except halt (state_event_e × state_machine_data) :=
  let data := { data with common := { data.common with object := object_get inp.ranges } }
  let data := { data with common := { data.common with line := inp.line } }
  let data := { data with common := { data.common with cmd := inp.cmd } }
  let snapshot : input := { object := data.common.object, line := data.common.line }
  let data := { data with input_history := input_history_save data.input_history snapshot }
  if data.common.cmd ≠ IR_CMD_NONE then
    .ok (STATE_EVENT_COMMAND, data)
  else if has_internal_event data then
    take_internal_event data
  else if timer_timeout data.timer inp.timer_elapsed then
    .ok (STATE_EVENT_TIMEOUT, timer_clear data)
  else if data.common.line ≠ LINE_NONE then
    .ok (STATE_EVENT_LINE, data)
  else if object_detected data.common.object then
    .ok (STATE_EVENT_object, data)
  else
    .ok (STATE_EVENT_NONE, data)

/-- `#define INPUT_HISTORY_BUFFER_SIZE (6u)`. -/
def INPUT_HISTORY_BUFFER_SIZE : Nat := 6

/-- Modelled from the spec: `LOCAL_RING_BUFFER(name, size, type)` declares an
empty ring buffer of the given capacity. -/
def LOCAL_RING_BUFFER (α : Type) (size : Nat) : ring_buffer α :=
  { size := size, items := [] }

/-- The function `state_machine_init` of `state_machine.c`, applied to the data
of `state_machine_run`, of which only `input_history` has been set. The retreat
policy starts with no move done. -/
def state_machine_init (input_history : ring_buffer input) : state_machine_data :=
  { state := STATE_WAIT,
    common := { object := { position := object_POS_NONE, range := object_RANGE_NONE },
                line := LINE_NONE, cmd := IR_CMD_NONE },
    search := state_search_init,
    approach := state_approach_init,
    retreat := { move_idx := 0 },
    internal_event := STATE_EVENT_NONE,
    timer := none,
    input_history := input_history,
    calls := [collaborator_call.timer_clear] }

/-- One iteration of the `while (1)` loop of `state_machine_run`. -/
def state_machine_tick (policies : state_policies) (data : state_machine_data)
    (inp : tick_input) : outcome :=
  match process_input data inp with
  | .error h => .error h
  | .ok (next_event, data) => process_event policies data next_event

/-- The loop of `state_machine_run` over the inputs of successive ticks; it
stops at the first failed `ASSERT`. -/
def state_machine_ticks (policies : state_policies) (data : state_machine_data) :
    List tick_input → outcome
  | [] => .ok data
  | inp :: rest =>
    match state_machine_tick policies data inp with
    | .error h => .error h
    | .ok data => state_machine_ticks policies data rest

/-- The function `state_machine_run` of `state_machine.c` over the inputs of
finitely many ticks. -/
def state_machine_run (policies : state_policies) (inputs : List tick_input) : outcome :=
  state_machine_ticks policies
    (state_machine_init (LOCAL_RING_BUFFER input INPUT_HISTORY_BUFFER_SIZE)) inputs

/-- The data a call ended with: the returned data, or the data at the failed
`ASSERT`. -/
def outcome_data : outcome → state_machine_data
  | .ok data => data
  | .error h => h.data

/-- The function whose `ASSERT` ended a call, if one did. -/
def outcome_site : outcome → Option assert_site
  | .ok _ => none
  | .error h => some h.site

/-- The three parameter policies leave the top-level state alone: the C type
`struct state_machine_data` is private to `state_machine.c`, so a policy cannot
assign `data->state`. -/
def policies_keep_state (policies : state_policies) : Prop :=
  ∀ (data : state_machine_data) (from_ : state_e) (event : state_event_e),
    (outcome_data (policies.state_wait_enter data from_ event)).state = data.state ∧
    (outcome_data (policies.state_retreat_enter data from_ event)).state = data.state ∧
    (outcome_data (policies.state_manual_enter data from_ event)).state = data.state

/-- The entry action that the `switch (to)` of `state_enter` pairs with each
state. -/
def state_entry_action (policies : state_policies) :
    state_e → state_machine_data → state_e → state_event_e → outcome
  | STATE_WAIT => policies.state_wait_enter
  | STATE_SEARCH => state_search_enter
  | STATE_approach => state_approach_enter
  | STATE_RETREAT => policies.state_retreat_enter
  | STATE_MANUAL => policies.state_manual_enter

/-- The snapshot is all-absent or repeats the entry at offset 0: the two cases in
which `input_history_save` records nothing. -/
def input_history_skips (history : ring_buffer input) (inp : input) : Prop :=
  (inp.line = LINE_NONE ∧ inp.object.position = object_POS_NONE) ∨
  (∃ h : 0 < ring_buffer_count history,
    inp.line = (ring_buffer_peek_head history 0 h).line ∧
    inp.object.position = (ring_buffer_peek_head history 0 h).object.position ∧
    inp.object.range = (ring_buffer_peek_head history 0 h).object.range)

/-- A tick on which the ranging read sees nothing within the threshold and the
timer has not run out, with the given line reading and command. -/
def tick_quiet (line : line_e) (cmd : ir_cmd_e) : tick_input :=
  { ranges := read_ok 650 650 650, line := line, cmd := cmd, timer_elapsed := false }

/-- A tick with no detection, no line and no command on which the armed timer
has run out. -/
def tick_timeout : tick_input :=
  { ranges := read_ok 650 650 650, line := LINE_NONE, cmd := IR_CMD_NONE,
    timer_elapsed := true }

/-- The policies modelled from the spec with a retreat maneuver of one move of
300 ms and no manual overrides. -/
def one_move_policies : state_policies :=
  spec_policies [{ dir := DRIVE_DIR_OTHER 0, speed := DRIVE_SPEED_FAST, duration := 300 }]
    (fun _ => none)

/-- The test that `input_history_last_directed_object` applies to an entry: its
opponent is at-left or at-right. -/
def input_directed (inp : input) : Bool :=
  object_at_left inp.object || object_at_right inp.object

/-- The descriptor `{ object_POS_NONE, object_RANGE_NONE }`. -/
def object_none : object :=
  { position := object_POS_NONE, range := object_RANGE_NONE }

/-- The entry at `offset` is the newest entry of the history that is at-left or
at-right: it is directed and no entry at a smaller offset is. -/
def newest_directed_at (history : ring_buffer input) (offset : Nat)
    (h : offset < ring_buffer_count history) : Prop :=
  input_directed (ring_buffer_peek_head history offset h) = true ∧
  ∀ (j : Nat) (hj : j < offset),
    input_directed (ring_buffer_peek_head history j (Nat.lt_trans hj h)) = false

/-- The writes of successive ticks: `input_history_save` applied to the
snapshots in the order given. -/
def input_history_save_all (history : ring_buffer input) (inputs : List input) :
    ring_buffer input :=
  inputs.foldl input_history_save history

/-- The spec's all-absent snapshot: line none and opponent position none. -/
def spec_all_absent (inp : input) : Bool :=
  inp.line == LINE_NONE && inp.object.position == object_POS_NONE

/-- The spec's collapsing of runs of equal consecutive snapshots: of every run
one snapshot is kept. -/
def spec_collapse_runs : List input → List input
  | [] => []
  | [a] => [a]
  | a :: b :: rest =>
    if a = b then spec_collapse_runs (b :: rest) else a :: spec_collapse_runs (b :: rest)

/-- The sequence the spec says is recorded: the all-absent snapshots deleted,
then runs of equal consecutive snapshots collapsed (oldest first). -/
def spec_recorded (inputs : List input) : List input :=
  spec_collapse_runs (inputs.filter (fun inp => !spec_all_absent inp))

/-- The history of `state_machine_run`, declared empty with capacity
`INPUT_HISTORY_BUFFER_SIZE`, after the given snapshots were recorded in order. -/
def recorded_history (inputs : List input) : ring_buffer input :=
  input_history_save_all (LOCAL_RING_BUFFER input INPUT_HISTORY_BUFFER_SIZE) inputs

/-- A snapshot with the opponent close in front and the line reading numbered
`k`: snapshots with different `k` are different and none is all-absent. -/
def snapshot_line (k : Nat) : input :=
  { object := { position := object_POS_FRONT, range := object_RANGE_CLOSE }, line := LINE_AT k }

/-- The all-absent snapshot whose range is none as well. -/
def snapshot_absent : input :=
  { object := { position := object_POS_NONE, range := object_RANGE_NONE }, line := LINE_NONE }

/-- A tick on which only the front sample (150 mm) is within the threshold, with
no line, no command and the timer not run out. -/
def tick_front : tick_input :=
  { ranges := read_ok 150 650 650, line := LINE_NONE, cmd := IR_CMD_NONE,
    timer_elapsed := false }

/-- The spec's toggle of the Search sub-state: Rotate to Forward, Forward to
Rotate. -/
def spec_search_toggle : search_state_e → search_state_e
  | SEARCH_STATE_ROTATE => SEARCH_STATE_FORWARD
  | SEARCH_STATE_FORWARD => SEARCH_STATE_ROTATE

/-- One timeout self-transition of Search: the data `state_search_enter` ends
with when called from Search with the timeout event. -/
def state_search_timeout (data : state_machine_data) : state_machine_data :=
  outcome_data (state_search_enter data STATE_SEARCH STATE_EVENT_TIMEOUT)

/-- The spec's drive action per Approach sub-state: forward, wide left turn,
wide right turn. -/
def spec_approach_drive_dir : approach_state_e → drive_dir_e
  | approach_STATE_FORWARD => DRIVE_DIR_FORWARD
  | approach_STATE_LEFT => DRIVE_DIR_ARCTURN_WIDE_LEFT
  | approach_STATE_RIGHT => DRIVE_DIR_ARCTURN_WIDE_RIGHT

/-- The initial data put in state Approach with the opponent descriptor
`{front-left, mid}` stored by the classifier; the stored Approach sub-state is
still Forward. -/
def approach_front_left_data : state_machine_data :=
  { state_machine_init (LOCAL_RING_BUFFER input 6) with
    state := STATE_approach,
    common := { object := { position := object_POS_FRONT_LEFT, range := object_RANGE_MID },
                line := LINE_NONE, cmd := IR_CMD_NONE } }

/-! ## Theorems: opponent fusion -/

/-- C1: for every triple of samples of a successful ranging read, with a sample
detected exactly when it is below 600, `object_get` returns front-all when all
three are detected, impossible when both sides are detected without the front,
front-and-front-left / front-left when the left side is detected with / without
the front, the same on the right, front when only the front is detected, and
none when nothing is detected. -/
theorem object_get_position_table (front front_left front_right : Nat) :
    (object_get (read_ok front front_left front_right)).position =
      match decide (front < 600), decide (front_left < 600), decide (front_right < 600) with
      | true, true, true => object_POS_FRONT_ALL
      | false, true, true => object_POS_IMPOSSIBLE
      | true, true, false => object_POS_FRONT_AND_FRONT_LEFT
      | false, true, false => object_POS_FRONT_LEFT
      | true, false, true => object_POS_FRONT_AND_FRONT_RIGHT
      | false, false, true => object_POS_FRONT_RIGHT
      | true, false, false => object_POS_FRONT
      | false, false, false => object_POS_NONE := by
  by_cases hf : front < 600 <;> by_cases hl : front_left < 600 <;>
    by_cases hr : front_right < 600 <;>
    simp [object_get, object_get_fuse, read_ok, RANGE_DETECT_THRESHOLD, hf, hl, hr] <;>
    split_ifs <;> rfl

/-- Every position and range value that the `if` chain of `object_get` can
produce: a detection carries a sample below the threshold, no detection
carries `INVALID_RANGE`. -/
theorem object_get_fuse_cases (front front_left front_right : Nat) :
    let fused := object_get_fuse front front_left front_right
    ((fused.1 = object_POS_NONE ∨ fused.1 = object_POS_IMPOSSIBLE) ∧ fused.2 = INVALID_RANGE) ∨
    (fused.1 ≠ object_POS_NONE ∧ fused.1 ≠ object_POS_IMPOSSIBLE ∧ fused.2 < 600 ∧
      fused.2 = spec_fused_sample fused.1 front front_left front_right) := by
  by_cases hf : front < 600 <;> by_cases hl : front_left < 600 <;>
    by_cases hr : front_right < 600 <;>
    simp [object_get_fuse, RANGE_DETECT_THRESHOLD, hf, hl, hr, spec_fused_sample, to_uint16,
      INVALID_RANGE] <;>
    omega

/-- After a successful read `object_get` returns the fused position, and the
bucket of the fused range unless that is `INVALID_RANGE`. -/
theorem object_get_of_success (r : vl53l0x_read) (h : r.result = 0) :
    object_get r =
      { position := (object_get_fuse r.range_front r.range_front_left r.range_front_right).1,
        range :=
          if (object_get_fuse r.range_front r.range_front_left r.range_front_right).2
              = INVALID_RANGE then object_RANGE_NONE
          else if (object_get_fuse r.range_front r.range_front_left r.range_front_right).2
              < RANGE_CLOSE then object_RANGE_CLOSE
          else if (object_get_fuse r.range_front r.range_front_left r.range_front_right).2
              < RANGE_MID then object_RANGE_MID
          else object_RANGE_FAR } := by
  simp only [object_get, h, ne_eq, not_true_eq_false, if_false]
  split_ifs <;> rfl

/-- C2: whenever `object_get` reports a detection, its range bucket is the
bucket (close below 100, mid below 200, otherwise far) of the fused sample:
the nested pairwise average for front-all, the average of side and front for
the front-and-side positions, the single detected sample otherwise. In
particular (150, 150, 150) gives front-all with range mid, and (650, 650, 650)
gives position none. -/
theorem object_get_range_bucket :
    (∀ front front_left front_right : Nat,
      object_detected (object_get (read_ok front front_left front_right)) = true →
      (object_get (read_ok front front_left front_right)).range =
        spec_range_bucket
          (spec_fused_sample (object_get (read_ok front front_left front_right)).position
            front front_left front_right)) ∧
    object_get (read_ok 150 150 150) =
      { position := object_POS_FRONT_ALL, range := object_RANGE_MID } ∧
    (object_get (read_ok 650 650 650)).position = object_POS_NONE := by
  refine ⟨?_, by decide, by decide⟩
  intro front front_left front_right hdet
  have hcases := object_get_fuse_cases front front_left front_right
  rw [object_get_of_success _ rfl] at hdet ⊢
  simp only [read_ok, object_detected] at hdet hcases ⊢
  rcases hcases with ⟨hpos, _⟩ | ⟨_, _, hlt, hsample⟩
  · rcases hpos with hpos | hpos <;> simp [hpos] at hdet
  · rw [← hsample]
    simp only [spec_range_bucket, RANGE_CLOSE, RANGE_MID, INVALID_RANGE]
    split_ifs <;> first | rfl | omega

/-- Witness for C2: the general statement applied to the samples (150, 150, 150). -/
theorem object_get_range_bucket_witness :
    (object_get (read_ok 150 150 150)).range =
      spec_range_bucket
        (spec_fused_sample (object_get (read_ok 150 150 150)).position 150 150 150) :=
  object_get_range_bucket.1 150 150 150 (by decide)

/-- C3, as the spec states it, fails: for the samples front = 650, front-left = 50,
front-right = 550 the position is not front-left, the value of `range` is not 50
and the range bucket is not close. -/
theorem object_get_650_50_550_not_front_left :
    (object_get (read_ok 650 50 550)).position ≠ object_POS_FRONT_LEFT ∧
    (object_get_fuse 650 50 550).2 ≠ 50 ∧
    (object_get (read_ok 650 50 550)).range ≠ object_RANGE_CLOSE := by
  decide

/-- C3, amended: front-right = 550 is below the 600 mm threshold, so the samples
front = 650, front-left = 50, front-right = 550 give position impossible with no
range sample and range none; with the front-right sample at 650 instead they
give position front-left with range sample 50 and range close. -/
theorem object_get_650_50_550_impossible :
    object_get (read_ok 650 50 550) =
      { position := object_POS_IMPOSSIBLE, range := object_RANGE_NONE } ∧
    object_get_fuse 650 50 550 = (object_POS_IMPOSSIBLE, INVALID_RANGE) ∧
    object_get (read_ok 650 50 650) =
      { position := object_POS_FRONT_LEFT, range := object_RANGE_CLOSE } ∧
    object_get_fuse 650 50 650 = (object_POS_FRONT_LEFT, 50) := by
  decide

/-- C4: for every outcome of the ranging read, an error or any three samples, the
descriptor returned by `object_get` has range none whenever its position is none
or impossible. -/
theorem object_get_no_range_without_detection (r : vl53l0x_read)
    (h : (object_get r).position = object_POS_NONE ∨
         (object_get r).position = object_POS_IMPOSSIBLE) :
    (object_get r).range = object_RANGE_NONE := by
  by_cases hres : r.result = 0
  · have hcases := object_get_fuse_cases r.range_front r.range_front_left r.range_front_right
    rw [object_get_of_success r hres] at h ⊢
    simp only at h hcases ⊢
    rcases hcases with ⟨_, hinv⟩ | ⟨h1, h2, _, _⟩
    · simp [hinv]
    · rcases h with h | h
      · exact absurd h h1
      · exact absurd h h2
  · simp [object_get, hres]

/-- Witness for C4: a failed ranging read and the contradictory samples
(650, 50, 550). -/
theorem object_get_no_range_without_detection_witness :
    (object_get { result := 1, range_front := 0, range_front_left := 0,
                  range_front_right := 0 }).range = object_RANGE_NONE ∧
    (object_get (read_ok 650 50 550)).range = object_RANGE_NONE :=
  ⟨object_get_no_range_without_detection _ (by decide),
   object_get_no_range_without_detection _ (by decide)⟩

/-! ## Theorems: the dispatcher -/

/-- Over rows with pairwise different `(from, event)` pairs, the scan of
`process_event` enters the destination of any row that matches. -/
theorem process_event_scan_of_mem (policies : state_policies) (data : state_machine_data)
    (next_event : state_event_e) (rows : List state_transition)
    (hkeys : (rows.map (fun r => (r.from_, r.event))).Nodup)
    (row : state_transition) (hrow : row ∈ rows)
    (hfrom : row.from_ = data.state) (hevent : row.event = next_event) :
    process_event_scan policies data next_event rows =
      state_enter policies data row.from_ next_event row.to_ := by
  induction rows with
  | nil => simp at hrow
  | cons first rest ih =>
    rw [List.map_cons, List.nodup_cons] at hkeys
    rw [process_event_scan]
    rcases List.mem_cons.mp hrow with hfirst | hrest
    · subst hfirst
      simp [hfrom, hevent]
    · by_cases hmatch : data.state = first.from_ ∧ next_event = first.event
      · exfalso
        apply hkeys.1
        rw [List.mem_map]
        refine ⟨row, hrest, ?_⟩
        rw [hfrom, hevent, hmatch.1, hmatch.2]
      · rw [if_neg hmatch]
        exact ih hkeys.2 hrest

/-- The `(from, event)` pairs of the rows of `state_transitions` are pairwise
different. -/
theorem state_transitions_nodup_keys :
    (state_transitions.map (fun r => (r.from_, r.event))).Nodup := by
  decide

/-- The scan of `process_event` enters the destination of any row of
`state_transitions` that matches the current state and the event. -/
theorem process_event_of_row (policies : state_policies) (data : state_machine_data)
    (next_event : state_event_e) (row : state_transition) (hrow : row ∈ state_transitions)
    (hfrom : row.from_ = data.state) (hevent : row.event = next_event) :
    process_event policies data next_event =
      state_enter policies data row.from_ next_event row.to_ :=
  process_event_scan_of_mem policies data next_event state_transitions
    state_transitions_nodup_keys row hrow hfrom hevent

/-- C6: no two rows of `state_transitions` have the same `(from, event)` pair;
hence two rows with the same pair are one row, and for every state and event
the first-match scan of `process_event` enters the destination of the only row
with that pair. -/
theorem state_transitions_keys_unique :
    (state_transitions.map (fun r => (r.from_, r.event))).Nodup ∧
    (∀ r1 ∈ state_transitions, ∀ r2 ∈ state_transitions,
      r1.from_ = r2.from_ → r1.event = r2.event → r1 = r2) ∧
    (∀ (policies : state_policies) (data : state_machine_data) (next_event : state_event_e),
      ∀ row ∈ state_transitions, row.from_ = data.state → row.event = next_event →
        process_event policies data next_event =
          state_enter policies data row.from_ next_event row.to_) := by
  refine ⟨state_transitions_nodup_keys, by decide, ?_⟩
  intro policies data next_event row hrow hfrom hevent
  exact process_event_of_row policies data next_event row hrow hfrom hevent

/-- Witness for C6: the row (Wait, command) -> Search at the initial data. -/
theorem state_transitions_keys_unique_witness :
    process_event (spec_policies [] (fun _ => none))
        (state_machine_init (LOCAL_RING_BUFFER input 6)) STATE_EVENT_COMMAND =
      state_enter (spec_policies [] (fun _ => none))
        (state_machine_init (LOCAL_RING_BUFFER input 6)) STATE_WAIT STATE_EVENT_COMMAND
        STATE_SEARCH :=
  state_transitions_keys_unique.2.2 _ _ _ ⟨STATE_WAIT, STATE_EVENT_COMMAND, STATE_SEARCH⟩
    (by decide) rfl rfl

/-- The function `state_search_run` leaves the top-level state alone. -/
theorem state_search_run_state (data : state_machine_data) :
    (state_search_run data).state = data.state := by
  unfold state_search_run
  split
  · simp only [timer_start, drive_set]
    split_ifs <;> rfl
  · rfl

/-- The function `state_search_enter` leaves the top-level state alone. -/
theorem state_search_enter_state (data : state_machine_data) (from_ : state_e)
    (event : state_event_e) :
    (outcome_data (state_search_enter data from_ event)).state = data.state := by
  cases from_ <;> cases event <;>
    simp only [state_search_enter, outcome_data, state_search_run_state, reduceCtorEq,
      if_true, if_false] <;>
    split <;> simp [outcome_data, state_search_run_state]

/-- The function `state_approach_run` leaves the top-level state alone. -/
theorem state_approach_run_state (data : state_machine_data) :
    (state_approach_run data).state = data.state := by
  unfold state_approach_run
  cases data.approach.state <;> rfl

/-- The function `state_approach_enter` leaves the top-level state alone. -/
theorem state_approach_enter_state (data : state_machine_data) (from_ : state_e)
    (event : state_event_e) :
    (outcome_data (state_approach_enter data from_ event)).state = data.state := by
  unfold state_approach_enter
  cases next_approach_state data.common.object with
  | none => rfl
  | some next =>
    cases from_ <;> cases event <;> simp only [outcome_data, state_approach_run_state]
    split_ifs <;> simp only [outcome_data, state_approach_run_state]

/-- Posting an internal event leaves the top-level state alone. -/
theorem state_machine_post_internal_event_state (data : state_machine_data)
    (event : state_event_e) :
    (outcome_data (state_machine_post_internal_event data event)).state = data.state := by
  unfold state_machine_post_internal_event
  split_ifs <;> rfl

/-- Starting a retreat move leaves the top-level state alone. -/
theorem spec_retreat_move_start_state (maneuver : List retreat_move)
    (data : state_machine_data) :
    (spec_retreat_move_start maneuver data).state = data.state := by
  unfold spec_retreat_move_start
  split <;> rfl

/-- The policies modelled from the spec leave the top-level state alone. -/
theorem spec_policies_keep_state (maneuver : List retreat_move)
    (override : ir_cmd_e → Option (drive_dir_e × drive_speed_e)) :
    policies_keep_state (spec_policies maneuver override) := by
  intro data from_ event
  refine ⟨rfl, ?_, ?_⟩
  · simp only [spec_policies, spec_state_retreat_enter]
    cases event <;> simp only [outcome_data, spec_retreat_move_start_state]
    split_ifs
    · exact state_machine_post_internal_event_state _ _
    · simp only [outcome_data, spec_retreat_move_start_state]
  · simp only [spec_policies, spec_state_manual_enter]
    split_ifs
    · split <;> rfl
    · rfl

/-- C7: when the current state `s = data.state` and the event `e` have a row
`(s, e) -> t`, `process_event` sets the state to `t`, clears the timer before
the entry action exactly when `s` differs from `t` (the data is handed over
untouched on a self-transition), and then runs the entry action of `t`, and
only that one, with the arguments `(s, e)`; as the entry actions leave the
top-level state alone, the state is `t` when `process_event` ends. -/
theorem process_event_enters_destination (policies : state_policies)
    (data : state_machine_data) (next_event : state_event_e) (to_ : state_e)
    (hrow : (⟨data.state, next_event, to_⟩ : state_transition) ∈ state_transitions) :
    let entered := if data.state ≠ to_ then { timer_clear data with state := to_ } else data
    entered.state = to_ ∧
    (data.state ≠ to_ →
      entered = { data with state := to_, timer := none,
                            calls := data.calls ++ [collaborator_call.timer_clear] }) ∧
    (data.state = to_ → entered = data) ∧
    process_event policies data next_event =
      state_entry_action policies to_ entered data.state next_event ∧
    (policies_keep_state policies →
      (outcome_data (process_event policies data next_event)).state = to_) := by
  intro entered
  have hstate : entered.state = to_ := by
    by_cases h : data.state = to_
    · simp [entered, h]
    · simp only [entered, ne_eq, h, not_false_eq_true, if_true]
  have hrun : process_event policies data next_event =
      state_enter policies data data.state next_event to_ :=
    process_event_of_row policies data next_event _ hrow rfl rfl
  have henter : state_enter policies data data.state next_event to_ =
      state_entry_action policies to_ entered data.state next_event := by
    cases to_ <;> rfl
  refine ⟨hstate, ?_, ?_, hrun.trans henter, ?_⟩
  · intro h
    simp only [entered, ne_eq, h, not_false_eq_true, if_true, timer_clear]
  · intro h
    simp [entered, h]
  · intro hkeep
    rw [hrun, henter]
    cases to_ <;> simp only [state_entry_action]
    · exact ((hkeep entered data.state next_event).1).trans hstate
    · exact (state_search_enter_state entered data.state next_event).trans hstate
    · exact (state_approach_enter_state entered data.state next_event).trans hstate
    · exact ((hkeep entered data.state next_event).2.1).trans hstate
    · exact ((hkeep entered data.state next_event).2.2).trans hstate

/-- Witness for C7: the row (Wait, command) -> Search at the initial data, with
the policies modelled from the spec. -/
theorem process_event_enters_destination_witness :
    process_event (spec_policies [] (fun _ => none))
        (state_machine_init (LOCAL_RING_BUFFER input 6)) STATE_EVENT_COMMAND =
      state_search_enter
        { timer_clear (state_machine_init (LOCAL_RING_BUFFER input 6)) with
          state := STATE_SEARCH } STATE_WAIT STATE_EVENT_COMMAND ∧
    (outcome_data (process_event (spec_policies [] (fun _ => none))
        (state_machine_init (LOCAL_RING_BUFFER input 6)) STATE_EVENT_COMMAND)).state =
      STATE_SEARCH :=
  ⟨(process_event_enters_destination (spec_policies [] (fun _ => none))
      (state_machine_init (LOCAL_RING_BUFFER input 6)) STATE_EVENT_COMMAND STATE_SEARCH
      (by decide)).2.2.2.1,
   (process_event_enters_destination (spec_policies [] (fun _ => none))
      (state_machine_init (LOCAL_RING_BUFFER input 6)) STATE_EVENT_COMMAND STATE_SEARCH
      (by decide)).2.2.2.2 (spec_policies_keep_state _ _)⟩

/-! ## Theorems: the event classifier -/

/-- C8: on every tick `process_input` returns exactly one event, chosen by fixed
priority: command if a command is present; otherwise the pending internal event
if one is pending; otherwise timeout if the timer has elapsed; otherwise line if
a line is present; otherwise opponent-detected if `object_detected` holds for
the fused descriptor; otherwise none. -/
theorem process_input_priority (data : state_machine_data) (inp : tick_input) :
    ∃ data_out : state_machine_data,
      process_input data inp =
        .ok (
          (if inp.cmd ≠ IR_CMD_NONE then STATE_EVENT_COMMAND
           else if data.internal_event ≠ STATE_EVENT_NONE then data.internal_event
           else if timer_timeout data.timer inp.timer_elapsed = true then STATE_EVENT_TIMEOUT
           else if inp.line ≠ LINE_NONE then STATE_EVENT_LINE
           else if object_detected (object_get inp.ranges) = true then STATE_EVENT_object
           else STATE_EVENT_NONE),
          data_out) := by
  unfold process_input
  simp only [take_internal_event, has_internal_event, bne_iff_ne]
  split_ifs <;> exact ⟨_, rfl⟩

/-! ## Theorems: the perception history -/

/-- Two snapshots are `input_equal` exactly when they have the same line, position
and range, that is, when they are the same snapshot. -/
theorem input_equal_iff (a b : input) : input_equal a b = true ↔ a = b := by
  rcases a with ⟨⟨apos, arange⟩, aline⟩
  rcases b with ⟨⟨bpos, brange⟩, bline⟩
  simp only [input_equal, Bool.and_eq_true, beq_iff_eq, input.mk.injEq, object.mk.injEq]
  tauto

/-- After `ring_buffer_put` the buffer is not empty. -/
theorem ring_buffer_put_count_pos {α : Type} (rb : ring_buffer α) (item : α) :
    0 < ring_buffer_count (ring_buffer_put rb item) := by
  unfold ring_buffer_put ring_buffer_count
  split_ifs <;> simp

/-- After `ring_buffer_put` the item is the entry at offset 0. -/
theorem ring_buffer_peek_head_put {α : Type} (rb : ring_buffer α) (item : α)
    (h : 0 < ring_buffer_count (ring_buffer_put rb item)) :
    ring_buffer_peek_head (ring_buffer_put rb item) 0 h = item := by
  unfold ring_buffer_peek_head
  have hitems : ∃ rest, (ring_buffer_put rb item).items = item :: rest := by
    unfold ring_buffer_put
    split_ifs <;> exact ⟨_, rfl⟩
  obtain ⟨rest, hrest⟩ := hitems
  simp [hrest]

/-- Having the same line, position and range is what `input_equal` tests. -/
theorem input_equal_fields (a b : input) :
    (a.line = b.line ∧ a.object.position = b.object.position ∧
      a.object.range = b.object.range) ↔ input_equal a b = true := by
  simp only [input_equal, Bool.and_eq_true, beq_iff_eq]
  tauto

/-- A snapshot that is all-absent or repeats the entry at offset 0 is not
recorded. -/
theorem input_history_save_of_skips (history : ring_buffer input) (inp : input)
    (hskip : input_history_skips history inp) :
    input_history_save history inp = history := by
  simp only [input_history_save]
  rcases hskip with ⟨hline, hpos⟩ | ⟨hcount, heq⟩
  · simp [hline, hpos]
  · split_ifs with h1 h2 h3
    · rfl
    · rfl
    · exact absurd ((input_equal_fields _ _).mp heq) h3
    · omega

/-- Any other snapshot is put into the ring buffer. -/
theorem input_history_save_of_not_skips (history : ring_buffer input) (inp : input)
    (hskip : ¬ input_history_skips history inp) :
    input_history_save history inp = ring_buffer_put history inp := by
  simp only [input_history_save]
  split_ifs with h1 h2 h3
  · exact absurd (Or.inl ⟨h1.2, h1.1⟩) hskip
  · exact absurd (Or.inr ⟨Nat.pos_of_ne_zero h2, (input_equal_fields _ _).mpr h3⟩) hskip
  · rfl
  · rfl

/-- C9: `input_history_save` leaves the history unchanged if the snapshot is
all-absent (line none and position none) or if the history is non-empty and the
snapshot has the same line, position and range as the entry at offset 0; in
every other case it puts the snapshot, which becomes the entry at offset 0. -/
theorem input_history_save_cases (history : ring_buffer input) (inp : input) :
    (input_history_skips history inp → input_history_save history inp = history) ∧
    (¬ input_history_skips history inp →
      input_history_save history inp = ring_buffer_put history inp ∧
      ∃ h : 0 < ring_buffer_count (input_history_save history inp),
        ring_buffer_peek_head (input_history_save history inp) 0 h = inp) := by
  refine ⟨input_history_save_of_skips history inp, ?_⟩
  intro hskip
  have hput := input_history_save_of_not_skips history inp hskip
  refine ⟨hput, ?_⟩
  rw [hput]
  exact ⟨ring_buffer_put_count_pos history inp, ring_buffer_peek_head_put history inp _⟩

/-- Witness for C9: the all-absent snapshot leaves a one-entry history unchanged,
and a front detection put on the empty history becomes the entry at offset 0. -/
theorem input_history_save_cases_witness :
    input_history_save
        { size := 6, items := [⟨⟨object_POS_FRONT, object_RANGE_MID⟩, LINE_NONE⟩] }
        ⟨⟨object_POS_NONE, object_RANGE_NONE⟩, LINE_NONE⟩ =
      { size := 6, items := [⟨⟨object_POS_FRONT, object_RANGE_MID⟩, LINE_NONE⟩] } ∧
    input_history_save (LOCAL_RING_BUFFER input 6)
        ⟨⟨object_POS_FRONT, object_RANGE_MID⟩, LINE_NONE⟩ =
      ring_buffer_put (LOCAL_RING_BUFFER input 6)
        ⟨⟨object_POS_FRONT, object_RANGE_MID⟩, LINE_NONE⟩ :=
  ⟨(input_history_save_cases _ _).1 (Or.inl ⟨rfl, rfl⟩),
   ((input_history_save_cases (LOCAL_RING_BUFFER input 6)
      ⟨⟨object_POS_FRONT, object_RANGE_MID⟩, LINE_NONE⟩).2
      (by
        rintro (⟨_, hpos⟩ | ⟨hcount, _⟩)
        · exact absurd hpos (by decide)
        · exact absurd hcount (by decide))).1⟩

/-- C10: recording a snapshot twice in a row gives the same history (same
capacity, same count and same entries) as recording it once, and recording the
all-absent snapshot never increases the count. -/
theorem input_history_save_twice (history : ring_buffer input) (inp : input) :
    input_history_save (input_history_save history inp) inp =
      input_history_save history inp ∧
    ring_buffer_count (input_history_save (input_history_save history inp) inp) =
      ring_buffer_count (input_history_save history inp) ∧
    (inp.line = LINE_NONE ∧ inp.object.position = object_POS_NONE →
      ring_buffer_count (input_history_save history inp) ≤ ring_buffer_count history) := by
  have htwice : input_history_save (input_history_save history inp) inp =
      input_history_save history inp := by
    by_cases hskip : input_history_skips history inp
    · rw [input_history_save_of_skips history inp hskip]
      exact input_history_save_of_skips history inp hskip
    · rw [input_history_save_of_not_skips history inp hskip]
      apply input_history_save_of_skips
      refine Or.inr ⟨ring_buffer_put_count_pos history inp, ?_⟩
      rw [ring_buffer_peek_head_put]
      exact ⟨rfl, rfl, rfl⟩
  refine ⟨htwice, by rw [htwice], ?_⟩
  intro habsent
  rw [input_history_save_of_skips history inp (Or.inl habsent)]

/-- Witness for C10: the all-absent snapshot recorded on a one-entry history
leaves its count at one. -/
theorem input_history_save_twice_witness :
    ring_buffer_count (input_history_save
        { size := 6, items := [⟨⟨object_POS_FRONT, object_RANGE_MID⟩, LINE_NONE⟩] }
        ⟨⟨object_POS_NONE, object_RANGE_NONE⟩, LINE_NONE⟩) ≤
      ring_buffer_count
        ({ size := 6, items := [⟨⟨object_POS_FRONT, object_RANGE_MID⟩, LINE_NONE⟩] } :
          ring_buffer input) :=
  (input_history_save_twice _ _).2.2 ⟨rfl, rfl⟩

/-! ## Theorems: reachable `(state, event)` pairs -/

/-- A command is classified before a pending internal event: `process_input`
returns `STATE_EVENT_COMMAND` and leaves the pending event in its slot. -/
theorem process_input_command_keeps_pending (data : state_machine_data) (inp : tick_input)
    (hcmd : inp.cmd ≠ IR_CMD_NONE) :
    ∃ data_out : state_machine_data,
      process_input data inp = .ok (STATE_EVENT_COMMAND, data_out) ∧
      data_out.internal_event = data.internal_event ∧ data_out.state = data.state := by
  unfold process_input
  simp only [ne_eq, hcmd, not_false_eq_true, if_true]
  exact ⟨_, rfl, rfl, rfl⟩

/-- Whatever the policies are: in state Manual with `STATE_EVENT_FINISHED` pending,
a tick without a command ends in the final `ASSERT(0)` of `process_event`. -/
theorem state_machine_tick_manual_pending_finished (policies : state_policies)
    (data : state_machine_data) (inp : tick_input) (hstate : data.state = STATE_MANUAL)
    (hpending : data.internal_event = STATE_EVENT_FINISHED) (hcmd : inp.cmd = IR_CMD_NONE) :
    outcome_site (state_machine_tick policies data inp) = some in_process_event := by
  simp [state_machine_tick, process_input, hcmd, has_internal_event, take_internal_event,
    hpending, process_event, state_transitions, process_event_scan, hstate, outcome_site]

/-- C5 fails on the code: from the initial data, the ticks command, line, timeout,
command lead through Search and Retreat (which posts `STATE_EVENT_FINISHED` when
its one-move maneuver times out) to Manual with the finished event still
pending, because the command of the fourth tick is classified before the
pending event. On the next tick without a command `process_input` returns
`STATE_EVENT_FINISHED` in state Manual, `state_transitions` has no row for that
pair, and `process_event` ends in its final `ASSERT(0)`. -/
theorem state_machine_run_reaches_unlisted_pair :
    ∃ data data_in : state_machine_data,
      state_machine_run one_move_policies
        [tick_quiet LINE_NONE (IR_CMD 1), tick_quiet (LINE_AT 1) IR_CMD_NONE, tick_timeout,
         tick_quiet LINE_NONE (IR_CMD 1)] = .ok data ∧
      (outcome_data (state_machine_run one_move_policies
        [tick_quiet LINE_NONE (IR_CMD 1)])).state = STATE_SEARCH ∧
      (outcome_data (state_machine_run one_move_policies
        [tick_quiet LINE_NONE (IR_CMD 1), tick_quiet (LINE_AT 1) IR_CMD_NONE])).state =
        STATE_RETREAT ∧
      (outcome_data (state_machine_run one_move_policies
        [tick_quiet LINE_NONE (IR_CMD 1), tick_quiet (LINE_AT 1) IR_CMD_NONE,
         tick_timeout])).state = STATE_RETREAT ∧
      (outcome_data (state_machine_run one_move_policies
        [tick_quiet LINE_NONE (IR_CMD 1), tick_quiet (LINE_AT 1) IR_CMD_NONE,
         tick_timeout])).internal_event = STATE_EVENT_FINISHED ∧
      data.state = STATE_MANUAL ∧
      data.internal_event = STATE_EVENT_FINISHED ∧
      process_input data (tick_quiet LINE_NONE IR_CMD_NONE) =
        .ok (STATE_EVENT_FINISHED, data_in) ∧
      data_in.state = STATE_MANUAL ∧
      (∀ row ∈ state_transitions,
        ¬ (row.from_ = STATE_MANUAL ∧ row.event = STATE_EVENT_FINISHED)) ∧
      process_event one_move_policies data_in STATE_EVENT_FINISHED =
        .error ⟨in_process_event, data_in⟩ ∧
      outcome_site (state_machine_run one_move_policies
        [tick_quiet LINE_NONE (IR_CMD 1), tick_quiet (LINE_AT 1) IR_CMD_NONE, tick_timeout,
         tick_quiet LINE_NONE (IR_CMD 1), tick_quiet LINE_NONE IR_CMD_NONE]) =
        some in_process_event :=
  ⟨_, _, rfl, rfl, rfl, rfl, rfl, rfl, rfl, rfl, rfl, by decide, rfl, rfl⟩

/-! ## Theorems: the last directed opponent -/

/-- The scan entered at offset `k` returns the descriptor of the first directed
entry at or after `k`, provided the count fits the `uint8_t` loop variable. -/
theorem input_history_scan_of_first (history : ring_buffer input)
    (hcount : ring_buffer_count history < 2 ^ 8) (offset : Nat)
    (h : offset < ring_buffer_count history)
    (hdir : input_directed (ring_buffer_peek_head history offset h) = true) :
    ∀ (todo k : Nat), k ≤ offset → k + todo = ring_buffer_count history →
      (∀ (j : Nat) (hj : j < offset), k ≤ j →
        input_directed (ring_buffer_peek_head history j (Nat.lt_trans hj h)) = false) →
      input_history_scan history k todo = (ring_buffer_peek_head history offset h).object := by
  intro todo
  induction todo with
  | zero => intro k hk hsum _; omega
  | succ todo ih =>
    intro k hk hsum hbefore
    have hklt : k < ring_buffer_count history := by omega
    rw [input_history_scan, dif_pos hklt]
    rcases Nat.eq_or_lt_of_le hk with heq | hlt
    · subst heq
      simp only [input_directed] at hdir
      simp only [hdir, if_true]
    · have hnot := hbefore k hlt (Nat.le_refl k)
      simp only [input_directed] at hnot
      simp only [hnot, Bool.false_eq_true, if_false]
      have hmod : (k + 1) % 2 ^ 8 = k + 1 := Nat.mod_eq_of_lt (by omega)
      rw [hmod]
      exact ih (k + 1) hlt (by omega) (fun j hj hkj => hbefore j hj (by omega))

/-- The scan entered at offset `k` returns `{none, none}` when no entry at or
after `k` is directed, provided the count fits the `uint8_t` loop variable. -/
theorem input_history_scan_of_none (history : ring_buffer input)
    (hcount : ring_buffer_count history < 2 ^ 8) :
    ∀ (todo k : Nat),
      (∀ (j : Nat) (hj : j < ring_buffer_count history), k ≤ j →
        input_directed (ring_buffer_peek_head history j hj) = false) →
      input_history_scan history k todo = object_none := by
  intro todo
  induction todo with
  | zero => intro k _; rfl
  | succ todo ih =>
    intro k hnone
    rw [input_history_scan]
    by_cases hklt : k < ring_buffer_count history
    · rw [dif_pos hklt]
      have hnot := hnone k hklt (Nat.le_refl k)
      simp only [input_directed] at hnot
      simp only [hnot, Bool.false_eq_true, if_false]
      have hmod : (k + 1) % 2 ^ 8 = k + 1 := Nat.mod_eq_of_lt (by omega)
      rw [hmod]
      exact ih (k + 1) (fun j hj hkj => hnone j hj (by omega))
    · rw [dif_neg hklt]
      rfl


/-- When some entry is directed, one of them is the newest directed entry. -/
theorem newest_directed_exists (history : ring_buffer input) (offset : Nat)
    (h : offset < ring_buffer_count history)
    (hdir : input_directed (ring_buffer_peek_head history offset h) = true) :
    ∃ (first : Nat) (hfirst : first < ring_buffer_count history),
      newest_directed_at history first hfirst := by
  induction offset using Nat.strong_induction_on with
  | _ offset ih =>
    by_cases hbefore : ∀ (j : Nat) (hj : j < offset),
        input_directed (ring_buffer_peek_head history j (Nat.lt_trans hj h)) = false
    · exact ⟨offset, h, hdir, hbefore⟩
    · push_neg at hbefore
      obtain ⟨j, hj, hjdir⟩ := hbefore
      exact ih j hj (Nat.lt_trans hj h) (by simpa using hjdir)

/-- With a count that fits the loop variable, `input_history_last_directed_object`
returns the descriptor of the newest directed entry. -/
theorem input_history_last_directed_object_of_newest (history : ring_buffer input)
    (hcount : ring_buffer_count history < 2 ^ 8) (offset : Nat)
    (h : offset < ring_buffer_count history) (hnewest : newest_directed_at history offset h) :
    input_history_last_directed_object history =
      (ring_buffer_peek_head history offset h).object :=
  input_history_scan_of_first history hcount offset h hnewest.1 _ 0 (Nat.zero_le _)
    (Nat.zero_add _) (fun j hj _ => hnewest.2 j hj)

/-- With a count that fits the loop variable, `input_history_last_directed_object`
returns `{none, none}` when no entry is directed. -/
theorem input_history_last_directed_object_of_none (history : ring_buffer input)
    (hcount : ring_buffer_count history < 2 ^ 8)
    (hnone : ∀ (j : Nat) (hj : j < ring_buffer_count history),
      input_directed (ring_buffer_peek_head history j hj) = false) :
    input_history_last_directed_object history = object_none :=
  input_history_scan_of_none history hcount _ 0 (fun j hj _ => hnone j hj)

/-- A directed descriptor is not `{none, none}`. -/
theorem input_directed_ne_object_none (inp : input) (hdir : input_directed inp = true) :
    inp.object ≠ object_none := by
  intro heq
  rw [input_directed, heq] at hdir
  exact absurd hdir (by decide)

/-- A descriptor at the front is neither at-left nor at-right. -/
theorem object_at_front_not_directed (inp : input) (hfront : object_at_front inp.object = true) :
    input_directed inp = false := by
  rcases inp with ⟨⟨position, range⟩, line⟩
  cases position <;> simp_all [object_at_front, input_directed, object_at_left, object_at_right]

/-- C12: for every history whose count fits the `uint8_t` loop variable (the
history of the program holds at most 6 entries),
`input_history_last_directed_object` returns the opponent descriptor of the
entry with the smallest offset whose opponent is at-left or at-right, and it
returns `{none, none}` exactly when no stored entry is at-left or at-right; for
a history `[front (offset 0), left (offset 1), right (offset 2)]` it returns the
opponent of the left entry. -/
theorem input_history_last_directed_object_newest (history : ring_buffer input)
    (hcount : ring_buffer_count history < 2 ^ 8) :
    (∀ (offset : Nat) (h : offset < ring_buffer_count history),
      newest_directed_at history offset h →
      input_history_last_directed_object history =
        (ring_buffer_peek_head history offset h).object) ∧
    (input_history_last_directed_object history = object_none ↔
      ∀ (j : Nat) (hj : j < ring_buffer_count history),
        input_directed (ring_buffer_peek_head history j hj) = false) ∧
    (∀ (size : Nat) (a b c : input), object_at_front a.object = true →
      object_at_left b.object = true → object_at_right c.object = true →
      input_history_last_directed_object { size := size, items := [a, b, c] } = b.object) := by
  refine ⟨fun offset h hnewest =>
    input_history_last_directed_object_of_newest history hcount offset h hnewest, ⟨?_, ?_⟩, ?_⟩
  · intro hret j hj
    by_contra hdir
    obtain ⟨first, hfirst, hnewest⟩ :=
      newest_directed_exists history j hj (by simpa using hdir)
    rw [input_history_last_directed_object_of_newest history hcount first hfirst hnewest] at hret
    exact input_directed_ne_object_none _ hnewest.1 hret
  · exact input_history_last_directed_object_of_none history hcount
  · intro size a b c ha hb _
    have hcount3 : ring_buffer_count ({ size := size, items := [a, b, c] } : ring_buffer input)
        < 2 ^ 8 := by
      simp [ring_buffer_count]
    have h1 : 1 < ring_buffer_count ({ size := size, items := [a, b, c] } : ring_buffer input) := by
      simp [ring_buffer_count]
    refine input_history_last_directed_object_of_newest _ hcount3 1 h1 ⟨?_, ?_⟩
    · simp [ring_buffer_peek_head, input_directed, hb]
    · intro j hj
      have hj0 : j = 0 := by omega
      subst hj0
      exact object_at_front_not_directed a ha

/-- Witness for C12: in the capacity-6 history holding a front, a front-left and a
front-right detection (newest first), the newest directed entry is at offset 1
and its opponent is returned. -/
theorem input_history_last_directed_object_newest_witness :
    input_history_last_directed_object
        { size := 6,
          items := [⟨⟨object_POS_FRONT, object_RANGE_MID⟩, LINE_NONE⟩,
                    ⟨⟨object_POS_FRONT_LEFT, object_RANGE_FAR⟩, LINE_NONE⟩,
                    ⟨⟨object_POS_FRONT_RIGHT, object_RANGE_CLOSE⟩, LINE_NONE⟩] } =
      ⟨object_POS_FRONT_LEFT, object_RANGE_FAR⟩ :=
  (input_history_last_directed_object_newest
      { size := 6,
        items := [⟨⟨object_POS_FRONT, object_RANGE_MID⟩, LINE_NONE⟩,
                  ⟨⟨object_POS_FRONT_LEFT, object_RANGE_FAR⟩, LINE_NONE⟩,
                  ⟨⟨object_POS_FRONT_RIGHT, object_RANGE_CLOSE⟩, LINE_NONE⟩] }
      (by decide)).1 1 (by decide) (by
        refine ⟨by decide, ?_⟩
        intro j hj
        have hj0 : j = 0 := by omega
        subst hj0
        rfl)


/-! ## Theorems: the recorded history -/

/-- Collapsing the runs of a non-empty sequence leaves a non-empty sequence. -/
theorem spec_collapse_runs_ne_nil (a : input) (rest : List input) :
    spec_collapse_runs (a :: rest) ≠ [] := by
  induction rest generalizing a with
  | nil => simp [spec_collapse_runs]
  | cons b rest ih =>
    rw [spec_collapse_runs]
    split_ifs
    · exact ih b
    · simp

/-- Collapsing runs after one more snapshot: the snapshot is added unless it
equals the last snapshot kept so far. -/
theorem spec_collapse_runs_append (inputs : List input) (x : input) :
    spec_collapse_runs (inputs ++ [x]) =
      if (spec_collapse_runs inputs).getLast? = some x then spec_collapse_runs inputs
      else spec_collapse_runs inputs ++ [x] := by
  induction inputs with
  | nil => simp [spec_collapse_runs]
  | cons a rest ih =>
    cases rest with
    | nil =>
      by_cases hax : a = x
      · simp [spec_collapse_runs, hax]
      · simp [spec_collapse_runs, hax]
    | cons b rest =>
      have hne := spec_collapse_runs_ne_nil b rest
      have hstep : (a :: b :: rest) ++ [x] = a :: b :: (rest ++ [x]) := rfl
      have hih : spec_collapse_runs (b :: (rest ++ [x])) =
          if (spec_collapse_runs (b :: rest)).getLast? = some x then spec_collapse_runs (b :: rest)
          else spec_collapse_runs (b :: rest) ++ [x] := ih
      rw [hstep, spec_collapse_runs, spec_collapse_runs, hih]
      by_cases hab : a = b
      · simp only [hab, if_true]
      · obtain ⟨c, kept, hkept⟩ := List.exists_cons_of_ne_nil hne
        simp only [hab, if_false, hkept, List.getLast?_cons_cons]
        split_ifs <;> rfl


/-- The function `input_history_save` in terms of the newest stored entry: the
snapshot is put unless it is all-absent or equals that entry. -/
theorem input_history_save_eq_head (history : ring_buffer input) (inp : input) :
    input_history_save history inp =
      if spec_all_absent inp = true then history
      else if history.items.head? = some inp then history
      else ring_buffer_put history inp := by
  rcases history with ⟨size, items⟩
  have habsent : spec_all_absent inp = true ↔
      (inp.object.position = object_POS_NONE ∧ inp.line = LINE_NONE) := by
    simp only [spec_all_absent, Bool.and_eq_true, beq_iff_eq]
    tauto
  cases items with
  | nil =>
    simp only [input_history_save, ring_buffer_count, List.length_nil, ne_eq,
      not_true_eq_false, dite_false, List.head?_nil, habsent]
    split_ifs <;> first | rfl | simp_all
  | cons first rest =>
    simp only [input_history_save, ring_buffer_count, List.length_cons, ne_eq,
      Nat.add_one_ne_zero, not_false_eq_true, dite_true, ring_buffer_peek_head,
      List.head?_cons, Option.some.injEq, habsent]
    have heq : input_equal inp first = true ↔ first = inp := by
      rw [input_equal_iff]
      exact eq_comm
    simp only [List.get_eq_getElem, List.getElem_cons_zero, heq]

/-- Putting an item into a buffer that holds the newest `size` items of a
sequence gives the buffer that holds the newest `size` items of the sequence
with the item in front. -/
theorem ring_buffer_put_take {α : Type} (size : Nat) (hsize : 0 < size) (full : List α)
    (item : α) :
    ring_buffer_put { size := size, items := full.take size } item =
      { size := size, items := (item :: full).take size } := by
  obtain ⟨k, rfl⟩ : ∃ k, size = k + 1 := ⟨size - 1, by omega⟩
  simp only [ring_buffer_put, ring_buffer_full, ring_buffer_count, List.length_take,
    decide_eq_true_eq, List.take_succ_cons]
  by_cases hfull : k + 1 ≤ full.length
  · have hmin : k + 1 ≤ min (k + 1) full.length := by omega
    rw [if_pos hmin, List.dropLast_eq_take, List.length_take, List.take_take]
    have hk : min (min (k + 1) full.length - 1) (k + 1) = k := by omega
    rw [hk]
  · have hmin : ¬ k + 1 ≤ min (k + 1) full.length := by omega
    rw [if_neg hmin, List.take_of_length_le (by omega), List.take_of_length_le (by omega)]

/-- Recording a sequence of snapshots into an empty history of capacity `size`
leaves the newest `size` snapshots of the sequence the spec says is recorded,
newest first. -/
theorem input_history_save_all_eq (size : Nat) (hsize : 0 < size) (inputs : List input) :
    input_history_save_all (LOCAL_RING_BUFFER input size) inputs =
      { size := size, items := (spec_recorded inputs).reverse.take size } := by
  induction inputs using List.reverseRecOn with
  | nil => simp [input_history_save_all, LOCAL_RING_BUFFER, spec_recorded, spec_collapse_runs]
  | append_singleton inputs x ih =>
    rw [input_history_save_all, List.foldl_append, List.foldl_cons, List.foldl_nil]
    rw [input_history_save_all] at ih
    rw [ih, input_history_save_eq_head]
    by_cases habsent : spec_all_absent x = true
    · simp [habsent, spec_recorded, List.filter_append]
    · have hrec : spec_recorded (inputs ++ [x]) =
          if (spec_recorded inputs).getLast? = some x then spec_recorded inputs
          else spec_recorded inputs ++ [x] := by
        have hx : (!spec_all_absent x) = true := by simpa using habsent
        simp only [spec_recorded, List.filter_append, List.filter_cons, List.filter_nil, hx,
          if_true]
        exact spec_collapse_runs_append _ x
      have hhead : ((spec_recorded inputs).reverse.take size).head? =
          (spec_recorded inputs).getLast? := by
        obtain ⟨k, rfl⟩ : ∃ k, size = k + 1 := ⟨size - 1, by omega⟩
        rw [← List.head?_reverse]
        cases (spec_recorded inputs).reverse <;> rfl
      rw [if_neg habsent, hrec]
      simp only [hhead]
      by_cases hlast : (spec_recorded inputs).getLast? = some x
      · simp only [hlast, if_true]
      · simp only [hlast, if_false, List.reverse_append, List.reverse_cons, List.reverse_nil,
          List.nil_append, List.singleton_append]
        exact ring_buffer_put_take size hsize _ x


/-- The recorded history in closed form: capacity 6 and the newest 6 snapshots
of the sequence the spec says is recorded. -/
theorem recorded_history_eq (inputs : List input) :
    recorded_history inputs =
      { size := 6, items := (spec_recorded inputs).reverse.take 6 } :=
  input_history_save_all_eq 6 (by decide) inputs

/-- C11, as the spec states it, fails: the seven snapshots below are pairwise
distinct, the seventh being the all-absent one, and after writing them in order
into the empty capacity-6 history the entry at offset 0 is the sixth written,
not the seventh, and the first written is still stored at offset 5. -/
theorem recorded_history_seventh_absent :
    [snapshot_line 1, snapshot_line 2, snapshot_line 3, snapshot_line 4, snapshot_line 5,
      snapshot_line 6, snapshot_absent].Nodup ∧
    (recorded_history [snapshot_line 1, snapshot_line 2, snapshot_line 3, snapshot_line 4,
      snapshot_line 5, snapshot_line 6, snapshot_absent]).items =
      [snapshot_line 6, snapshot_line 5, snapshot_line 4, snapshot_line 3, snapshot_line 2,
        snapshot_line 1] ∧
    (recorded_history [snapshot_line 1, snapshot_line 2, snapshot_line 3, snapshot_line 4,
      snapshot_line 5, snapshot_line 6, snapshot_absent]).items.head? ≠ some snapshot_absent ∧
    snapshot_line 1 ∈
      (recorded_history [snapshot_line 1, snapshot_line 2, snapshot_line 3, snapshot_line 4,
        snapshot_line 5, snapshot_line 6, snapshot_absent]).items := by
  decide

/-- C11, amended: writing 7 distinct snapshots, none of them all-absent, in order
with `input_history_save` into the empty capacity-6 history leaves count 6 and
exactly the last 6 written, newest first: offset 0 is the 7th written, offset 5
is the 2nd written, and the 1st written is gone. -/
theorem recorded_history_seven_distinct (s1 s2 s3 s4 s5 s6 s7 : input)
    (hdistinct : [s1, s2, s3, s4, s5, s6, s7].Nodup)
    (hpresent : ∀ s ∈ [s1, s2, s3, s4, s5, s6, s7], spec_all_absent s = false) :
    ring_buffer_count (recorded_history [s1, s2, s3, s4, s5, s6, s7]) = 6 ∧
    (recorded_history [s1, s2, s3, s4, s5, s6, s7]).items = [s7, s6, s5, s4, s3, s2] ∧
    (∃ h0 : 0 < ring_buffer_count (recorded_history [s1, s2, s3, s4, s5, s6, s7]),
      ring_buffer_peek_head (recorded_history [s1, s2, s3, s4, s5, s6, s7]) 0 h0 = s7) ∧
    (∃ h5 : 5 < ring_buffer_count (recorded_history [s1, s2, s3, s4, s5, s6, s7]),
      ring_buffer_peek_head (recorded_history [s1, s2, s3, s4, s5, s6, s7]) 5 h5 = s2) ∧
    s1 ∉ (recorded_history [s1, s2, s3, s4, s5, s6, s7]).items := by
  have hrec : spec_recorded [s1, s2, s3, s4, s5, s6, s7] = [s1, s2, s3, s4, s5, s6, s7] := by
    simp only [List.mem_cons, List.mem_singleton, forall_eq_or_imp, forall_eq,
      List.not_mem_nil, false_implies, implies_true, and_true] at hpresent
    simp only [List.nodup_cons, List.mem_cons, List.mem_singleton, not_or, List.not_mem_nil,
      not_false_eq_true, List.nodup_nil, and_true] at hdistinct
    obtain ⟨h1, h2, h3, h4, h5, h6, h7⟩ := hpresent
    simp [spec_recorded, List.filter, h1, h2, h3, h4, h5, h6, h7, spec_collapse_runs,
      hdistinct]
  have hitems : (recorded_history [s1, s2, s3, s4, s5, s6, s7]).items =
      [s7, s6, s5, s4, s3, s2] := by
    rw [recorded_history_eq, hrec]
    rfl
  simp only [List.nodup_cons, List.mem_cons, List.mem_singleton, not_or, List.not_mem_nil,
    not_false_eq_true, List.nodup_nil, and_true] at hdistinct
  refine ⟨by rw [ring_buffer_count, hitems]; rfl, hitems, ?_, ?_, ?_⟩
  · refine ⟨by rw [ring_buffer_count, hitems]; simp, ?_⟩
    simp only [ring_buffer_peek_head, hitems, List.get_eq_getElem, List.getElem_cons_zero]
  · refine ⟨by rw [ring_buffer_count, hitems]; simp, ?_⟩
    simp [ring_buffer_peek_head, hitems]
  · rw [hitems]
    simp only [List.mem_cons, List.mem_singleton, List.not_mem_nil, or_false, not_or]
    exact ⟨hdistinct.1.2.2.2.2.2, hdistinct.1.2.2.2.2.1, hdistinct.1.2.2.2.1,
      hdistinct.1.2.2.1, hdistinct.1.2.1, hdistinct.1.1⟩


/-- Witness for C11: seven distinct snapshots with a line reading each. -/
theorem recorded_history_seven_distinct_witness :
    (recorded_history [snapshot_line 1, snapshot_line 2, snapshot_line 3, snapshot_line 4,
      snapshot_line 5, snapshot_line 6, snapshot_line 7]).items =
      [snapshot_line 7, snapshot_line 6, snapshot_line 5, snapshot_line 4, snapshot_line 3,
        snapshot_line 2] :=
  (recorded_history_seven_distinct (snapshot_line 1) (snapshot_line 2) (snapshot_line 3)
    (snapshot_line 4) (snapshot_line 5) (snapshot_line 6) (snapshot_line 7)
    (by decide) (by decide)).2.1

/-- Collapsing runs keeps only snapshots of the sequence. -/
theorem spec_collapse_runs_subset (inputs : List input) :
    ∀ e ∈ spec_collapse_runs inputs, e ∈ inputs := by
  induction inputs with
  | nil => simp [spec_collapse_runs]
  | cons a rest ih =>
    cases rest with
    | nil => simp [spec_collapse_runs]
    | cons b rest =>
      intro e he
      rw [spec_collapse_runs] at he
      split_ifs at he
      · exact List.mem_cons_of_mem _ (ih e he)
      · rcases List.mem_cons.mp he with hea | hrest
        · exact hea ▸ List.mem_cons_self _ _
        · exact List.mem_cons_of_mem _ (ih e hrest)

/-- Collapsing runs keeps the first snapshot of the sequence in front. -/
theorem spec_collapse_runs_head (a : input) (rest : List input) :
    (spec_collapse_runs (a :: rest)).head? = some a := by
  induction rest generalizing a with
  | nil => rfl
  | cons b rest ih =>
    rw [spec_collapse_runs]
    split_ifs with hab
    · rw [ih b, hab]
    · rfl

/-- After collapsing runs no two neighbours are equal. -/
theorem spec_collapse_runs_chain (inputs : List input) :
    (spec_collapse_runs inputs).Chain' (fun a b => a ≠ b) := by
  induction inputs with
  | nil => simp [spec_collapse_runs]
  | cons a rest ih =>
    cases rest with
    | nil => simp [spec_collapse_runs]
    | cons b rest =>
      rw [spec_collapse_runs]
      split_ifs with hab
      · exact ih
      · rw [List.chain'_cons', spec_collapse_runs_head]
        refine ⟨?_, ih⟩
        intro y hy
        rw [Option.mem_def, Option.some.injEq] at hy
        exact hy ▸ hab

/-- The entries of the recorded history: none is all-absent and no two
neighbours are equal. -/
theorem recorded_history_items (inputs : List input) :
    (∀ e ∈ (recorded_history inputs).items, spec_all_absent e = false) ∧
    (recorded_history inputs).items.Chain' (fun a b => a ≠ b) := by
  rw [recorded_history_eq]
  constructor
  · intro e he
    have hmem := spec_collapse_runs_subset _ e (List.mem_reverse.mp (List.mem_of_mem_take he))
    simpa using (List.mem_filter.mp hmem).2
  · apply List.Chain'.take
    rw [List.chain'_reverse]
    exact (spec_collapse_runs_chain _).imp (fun _ _ h => Ne.symm h)

/-- C20: for every sequence of snapshots recorded with `input_history_save` into
the initially empty capacity-6 history, the history never holds more than 6
entries, never holds an all-absent entry and never holds two equal entries at
adjacent offsets; its content, newest first, is the last 6 elements of the
sequence obtained by deleting the all-absent snapshots and then collapsing runs
of equal consecutive snapshots. -/
theorem recorded_history_invariants (inputs : List input) :
    ring_buffer_count (recorded_history inputs) ≤ 6 ∧
    (∀ (j : Nat) (hj : j < ring_buffer_count (recorded_history inputs)),
      spec_all_absent (ring_buffer_peek_head (recorded_history inputs) j hj) = false) ∧
    (∀ (j : Nat) (hj : j + 1 < ring_buffer_count (recorded_history inputs)),
      ring_buffer_peek_head (recorded_history inputs) j (Nat.lt_of_succ_lt hj) ≠
        ring_buffer_peek_head (recorded_history inputs) (j + 1) hj) ∧
    (recorded_history inputs).items = (spec_recorded inputs).reverse.take 6 ∧
    (recorded_history inputs).items.reverse =
      (spec_recorded inputs).drop ((spec_recorded inputs).length - 6) := by
  have hitems : (recorded_history inputs).items = (spec_recorded inputs).reverse.take 6 := by
    rw [recorded_history_eq]
  refine ⟨?_, ?_, ?_, hitems, ?_⟩
  · rw [ring_buffer_count, hitems, List.length_take]
    exact Nat.min_le_left _ _
  · intro j hj
    exact (recorded_history_items inputs).1 _ (List.get_mem _ _ _)
  · intro j hj
    have hchain := List.chain'_iff_get.mp (recorded_history_items inputs).2
    exact hchain j (by simp only [ring_buffer_count] at hj; omega)
  · rw [hitems, List.reverse_take, List.reverse_reverse, List.length_reverse]


/-! ## Theorems: the Search policy -/

/-- The function `state_search_run` leaves the Search sub-state alone. -/
theorem state_search_run_search (data : state_machine_data) :
    (state_search_run data).search = data.search := by
  unfold state_search_run
  split
  · simp only [timer_start, drive_set]
    split_ifs <;> rfl
  · rfl

/-- In state Approach the event none is dispatched to `state_search_enter`, which
runs the action of the current Search sub-state. -/
theorem process_event_approach_none (policies : state_policies) (data : state_machine_data)
    (hstate : data.state = STATE_approach) :
    process_event policies data STATE_EVENT_NONE =
      .ok (state_search_run { timer_clear data with state := STATE_SEARCH }) := by
  rw [process_event_of_row policies data STATE_EVENT_NONE
    ⟨STATE_approach, STATE_EVENT_NONE, STATE_SEARCH⟩ (by decide) hstate.symm rfl]
  rfl

/-- C13, as the spec states it, fails: after the ticks command, timeout, front
detection the state is Approach with the Search sub-state Forward; on the next
tick the opponent is lost (event none), the dispatcher moves to Search, and the
Search sub-state is still Forward, with the Forward action run (drive forward,
3000 ms timer). -/
theorem state_machine_run_lost_keeps_forward :
    (outcome_data (state_machine_run one_move_policies
      [tick_quiet LINE_NONE (IR_CMD 1), tick_timeout, tick_front])).state = STATE_approach ∧
    (outcome_data (state_machine_run one_move_policies
      [tick_quiet LINE_NONE (IR_CMD 1), tick_timeout, tick_front])).search.state =
      SEARCH_STATE_FORWARD ∧
    outcome_site (state_machine_run one_move_policies
      [tick_quiet LINE_NONE (IR_CMD 1), tick_timeout, tick_front,
       tick_quiet LINE_NONE IR_CMD_NONE]) = none ∧
    (outcome_data (state_machine_run one_move_policies
      [tick_quiet LINE_NONE (IR_CMD 1), tick_timeout, tick_front,
       tick_quiet LINE_NONE IR_CMD_NONE])).state = STATE_SEARCH ∧
    (outcome_data (state_machine_run one_move_policies
      [tick_quiet LINE_NONE (IR_CMD 1), tick_timeout, tick_front,
       tick_quiet LINE_NONE IR_CMD_NONE])).search.state = SEARCH_STATE_FORWARD ∧
    (outcome_data (state_machine_run one_move_policies
      [tick_quiet LINE_NONE (IR_CMD 1), tick_timeout, tick_front,
       tick_quiet LINE_NONE IR_CMD_NONE])).search.state ≠ SEARCH_STATE_ROTATE ∧
    (outcome_data (state_machine_run one_move_policies
      [tick_quiet LINE_NONE (IR_CMD 1), tick_timeout, tick_front,
       tick_quiet LINE_NONE IR_CMD_NONE])).calls.reverse.take 3 =
      [collaborator_call.timer_start 3000,
       collaborator_call.drive_set DRIVE_DIR_FORWARD DRIVE_SPEED_FAST,
       collaborator_call.timer_clear] := by
  decide

/-- C13, amended: when the state is Approach and the opponent is lost (event
none), the dispatcher clears the timer, moves to Search and runs the action of
the current Search sub-state without changing it: Search is in Forward after
the transition if it had been Forward, and in Rotate if it had been Rotate. -/
theorem process_event_lost_keeps_sub_state (policies : state_policies)
    (data : state_machine_data) (hstate : data.state = STATE_approach) :
    process_event policies data STATE_EVENT_NONE =
      .ok (state_search_run { timer_clear data with state := STATE_SEARCH }) ∧
    (outcome_data (process_event policies data STATE_EVENT_NONE)).state = STATE_SEARCH ∧
    (outcome_data (process_event policies data STATE_EVENT_NONE)).search.state =
      data.search.state := by
  rw [process_event_approach_none policies data hstate]
  refine ⟨rfl, ?_, ?_⟩
  · simp only [outcome_data, state_search_run_state]
  · simp only [outcome_data, state_search_run_search]
    rfl

/-- Witness for C13: Approach with the Search sub-state Forward, reached by the
ticks command, timeout, front detection. -/
theorem process_event_lost_keeps_sub_state_witness :
    (outcome_data (process_event one_move_policies
      (outcome_data (state_machine_run one_move_policies
        [tick_quiet LINE_NONE (IR_CMD 1), tick_timeout, tick_front]))
      STATE_EVENT_NONE)).search.state = SEARCH_STATE_FORWARD :=
  (process_event_lost_keeps_sub_state one_move_policies
    (outcome_data (state_machine_run one_move_policies
      [tick_quiet LINE_NONE (IR_CMD 1), tick_timeout, tick_front])) (by decide)).2.2


/-- A timeout self-transition of Search toggles the sub-state and runs the action
of the new sub-state. -/
theorem state_search_enter_timeout (data : state_machine_data) :
    state_search_enter data STATE_SEARCH STATE_EVENT_TIMEOUT =
      .ok (state_search_run
        { data with search := { state := spec_search_toggle data.search.state } }) := by
  simp only [state_search_enter]
  cases hsub : data.search.state <;> rfl

/-- After a timeout self-transition the Search sub-state is the toggled one. -/
theorem state_search_timeout_search (data : state_machine_data) :
    (state_search_timeout data).search.state = spec_search_toggle data.search.state := by
  rw [state_search_timeout, state_search_enter_timeout]
  simp only [outcome_data, state_search_run_search]

/-- C14: called as a self-transition with event timeout, `state_search_enter`
changes Rotate to Forward and Forward to Rotate and then runs the action of the
new sub-state; over any run of successive timeout self-transitions the
sub-state strictly alternates, and two such transitions restore the original
sub-state. A self-transition with event none returns the data as it was:
sub-state, drive calls and timer are unchanged. -/
theorem state_search_enter_self_transitions (data : state_machine_data) :
    state_search_enter data STATE_SEARCH STATE_EVENT_TIMEOUT =
      .ok (state_search_run
        { data with search := { state := spec_search_toggle data.search.state } }) ∧
    (data.search.state = SEARCH_STATE_ROTATE →
      (state_search_timeout data).search.state = SEARCH_STATE_FORWARD) ∧
    (data.search.state = SEARCH_STATE_FORWARD →
      (state_search_timeout data).search.state = SEARCH_STATE_ROTATE) ∧
    (∀ n : Nat, (state_search_timeout^[n + 1] data).search.state =
      spec_search_toggle (state_search_timeout^[n] data).search.state ∧
      (state_search_timeout^[n + 1] data).search.state ≠
        (state_search_timeout^[n] data).search.state) ∧
    (state_search_timeout (state_search_timeout data)).search.state = data.search.state ∧
    state_search_enter data STATE_SEARCH STATE_EVENT_NONE = .ok data ∧
    (∀ policies : state_policies, data.state = STATE_SEARCH →
      process_event policies data STATE_EVENT_NONE = .ok data) := by
  refine ⟨state_search_enter_timeout data, ?_, ?_, ?_, ?_, rfl, ?_⟩
  · intro h
    rw [state_search_timeout_search, h]
    rfl
  · intro h
    rw [state_search_timeout_search, h]
    rfl
  · intro n
    rw [Function.iterate_succ_apply', state_search_timeout_search]
    refine ⟨rfl, ?_⟩
    cases (state_search_timeout^[n] data).search.state <;> decide
  · rw [state_search_timeout_search, state_search_timeout_search]
    cases data.search.state <;> rfl
  · intro policies hstate
    rw [process_event_of_row policies data STATE_EVENT_NONE
      ⟨STATE_SEARCH, STATE_EVENT_NONE, STATE_SEARCH⟩ (by decide) hstate.symm rfl]
    rfl

/-- Witness for C14: from the Search sub-state Rotate of the initial data, one
timeout self-transition gives Forward and a self-transition with event none in
state Search changes nothing. -/
theorem state_search_enter_self_transitions_witness :
    (state_search_timeout
      (state_machine_init (LOCAL_RING_BUFFER input 6))).search.state = SEARCH_STATE_FORWARD ∧
    process_event one_move_policies
      { state_machine_init (LOCAL_RING_BUFFER input 6) with state := STATE_SEARCH }
      STATE_EVENT_NONE =
      .ok { state_machine_init (LOCAL_RING_BUFFER input 6) with state := STATE_SEARCH } :=
  ⟨(state_search_enter_self_transitions
      (state_machine_init (LOCAL_RING_BUFFER input 6))).2.1 rfl,
   (state_search_enter_self_transitions
      { state_machine_init (LOCAL_RING_BUFFER input 6) with state := STATE_SEARCH }).2.2.2.2.2.2
      one_move_policies rfl⟩

/-- C17: called from Retreat with event finished, `state_search_enter` leaves the
sub-state equal to Rotate (Forward is forced to Rotate, Rotate is kept) and then
runs the Rotate action; called from Wait with event command or from Approach
with event none it runs the action of the current sub-state without changing
the sub-state. -/
theorem state_search_enter_from_other_states (data : state_machine_data) :
    state_search_enter data STATE_RETREAT STATE_EVENT_FINISHED =
      .ok (state_search_run { data with search := { state := SEARCH_STATE_ROTATE } }) ∧
    (outcome_data (state_search_enter data STATE_RETREAT STATE_EVENT_FINISHED)).search.state =
      SEARCH_STATE_ROTATE ∧
    state_search_enter data STATE_WAIT STATE_EVENT_COMMAND = .ok (state_search_run data) ∧
    state_search_enter data STATE_approach STATE_EVENT_NONE = .ok (state_search_run data) ∧
    (state_search_run data).search.state = data.search.state := by
  have hfinished : state_search_enter data STATE_RETREAT STATE_EVENT_FINISHED =
      .ok (state_search_run { data with search := { state := SEARCH_STATE_ROTATE } }) := by
    simp only [state_search_enter, if_true]
    by_cases hsub : data.search.state = SEARCH_STATE_FORWARD
    · rw [if_pos hsub]
    · rw [if_neg hsub]
      have hrot : data.search = { state := SEARCH_STATE_ROTATE } := by
        rcases hs : data.search with ⟨sub⟩
        rw [hs] at hsub
        cases sub
        · rfl
        · exact absurd rfl hsub
      rw [← hrot]
  refine ⟨hfinished, ?_, rfl, rfl, ?_⟩
  · rw [hfinished]
    simp only [outcome_data, state_search_run_search]
  · rw [state_search_run_search]


/-- The Rotate action in terms of what `input_history_last_directed_object`
returns. -/
theorem state_search_run_rotate (data : state_machine_data)
    (hsub : data.search.state = SEARCH_STATE_ROTATE) :
    state_search_run data =
      timer_start
        (drive_set data
          (if object_at_right (input_history_last_directed_object data.input_history) = true
           then DRIVE_DIR_ROTATE_RIGHT else DRIVE_DIR_ROTATE_LEFT) DRIVE_SPEED_FAST) 400 := by
  simp only [state_search_run, hsub, SEARCH_STATE_ROTATE_TIMEOUT]
  split_ifs <;> rfl

/-- C18: for every history whose count fits the `uint8_t` loop variable of the
scan (the history of the program holds at most 6 entries), the Search Rotate
action commands rotate-right when the newest history entry that is at-left or
at-right is at-right, and rotate-left in every other case (the newest directed
entry is at-left, or the history is empty or holds no directed entry), and arms
the timer with 400 ms; the Search Forward action commands forward and arms the
timer with 3000 ms. -/
theorem state_search_run_actions (data : state_machine_data) :
    (data.search.state = SEARCH_STATE_ROTATE →
      ring_buffer_count data.input_history < 2 ^ 8 →
      ((∃ (offset : Nat) (h : offset < ring_buffer_count data.input_history),
          newest_directed_at data.input_history offset h ∧
          object_at_right (ring_buffer_peek_head data.input_history offset h).object = true) →
        state_search_run data =
          timer_start (drive_set data DRIVE_DIR_ROTATE_RIGHT DRIVE_SPEED_FAST) 400) ∧
      ((¬ ∃ (offset : Nat) (h : offset < ring_buffer_count data.input_history),
          newest_directed_at data.input_history offset h ∧
          object_at_right (ring_buffer_peek_head data.input_history offset h).object = true) →
        state_search_run data =
          timer_start (drive_set data DRIVE_DIR_ROTATE_LEFT DRIVE_SPEED_FAST) 400) ∧
      ((state_search_run data).timer = some 400)) ∧
    (data.search.state = SEARCH_STATE_FORWARD →
      state_search_run data =
        timer_start (drive_set data DRIVE_DIR_FORWARD DRIVE_SPEED_FAST) 3000 ∧
      (state_search_run data).calls = data.calls ++
        [collaborator_call.drive_set DRIVE_DIR_FORWARD DRIVE_SPEED_FAST,
         collaborator_call.timer_start 3000] ∧
      (state_search_run data).timer = some 3000) := by
  constructor
  · intro hsub hcount
    rw [state_search_run_rotate data hsub]
    refine ⟨?_, ?_, rfl⟩
    · rintro ⟨offset, h, hnewest, hright⟩
      rw [input_history_last_directed_object_of_newest _ hcount offset h hnewest, hright]
      rfl
    · intro hno
      by_cases hany : ∃ (j : Nat) (hj : j < ring_buffer_count data.input_history),
          input_directed (ring_buffer_peek_head data.input_history j hj) = true
      · obtain ⟨j, hj, hdir⟩ := hany
        obtain ⟨first, hfirst, hnewest⟩ := newest_directed_exists _ j hj hdir
        rw [input_history_last_directed_object_of_newest _ hcount first hfirst hnewest]
        have hnotright :
            object_at_right (ring_buffer_peek_head data.input_history first hfirst).object
              ≠ true :=
          fun hright => hno ⟨first, hfirst, hnewest, hright⟩
        rw [if_neg hnotright]
      · have hnone : ∀ (j : Nat) (hj : j < ring_buffer_count data.input_history),
            input_directed (ring_buffer_peek_head data.input_history j hj) = false := by
          intro j hj
          by_contra hdir
          exact hany ⟨j, hj, by simpa using hdir⟩
        rw [input_history_last_directed_object_of_none _ hcount hnone]
        rfl
  · intro hsub
    have hrun : state_search_run data =
        timer_start (drive_set data DRIVE_DIR_FORWARD DRIVE_SPEED_FAST) 3000 := by
      simp only [state_search_run, hsub, SEARCH_STATE_FORWARD_TIMEOUT]
    rw [hrun]
    refine ⟨rfl, ?_, rfl⟩
    simp [timer_start, drive_set]

/-- Witness for C18: with the history front-right (offset 0), front-left
(offset 1) the Rotate action commands rotate-right and arms 400 ms; with the
sub-state Forward the action commands forward and arms 3000 ms. -/
theorem state_search_run_actions_witness :
    state_search_run
        { state_machine_init
            { size := 6,
              items := [⟨⟨object_POS_FRONT_RIGHT, object_RANGE_MID⟩, LINE_NONE⟩,
                        ⟨⟨object_POS_FRONT_LEFT, object_RANGE_MID⟩, LINE_NONE⟩] } with
          state := STATE_SEARCH } =
      timer_start
        (drive_set
          { state_machine_init
              { size := 6,
                items := [⟨⟨object_POS_FRONT_RIGHT, object_RANGE_MID⟩, LINE_NONE⟩,
                          ⟨⟨object_POS_FRONT_LEFT, object_RANGE_MID⟩, LINE_NONE⟩] } with
            state := STATE_SEARCH }
          DRIVE_DIR_ROTATE_RIGHT DRIVE_SPEED_FAST) 400 ∧
    (state_search_run
        { state_machine_init (LOCAL_RING_BUFFER input 6) with
          search := { state := SEARCH_STATE_FORWARD } }).timer = some 3000 :=
  ⟨((state_search_run_actions _).1 rfl (by decide)).1
      ⟨0, by decide, ⟨by decide, fun j hj => absurd hj (Nat.not_lt_zero j)⟩, by decide⟩,
   ((state_search_run_actions _).2 rfl).2.2⟩


/-! ## Theorems: the Approach policy -/

/-- The function `state_approach_run` issues the drive command of the sub-state
and starts the 5000 ms timer. -/
theorem state_approach_run_eq (data : state_machine_data) :
    state_approach_run data =
      timer_start
        (drive_set data (spec_approach_drive_dir data.approach.state) DRIVE_SPEED_FAST) 5000 := by
  simp only [state_approach_run, approach_STATE_TIMEOUT]
  cases data.approach.state <;> rfl

/-- The function `next_approach_state` returns a sub-state exactly for a detected
opponent. -/
theorem next_approach_state_isSome (obj : object) :
    (next_approach_state obj).isSome = object_detected obj := by
  rcases obj with ⟨position, range⟩
  cases position <;> rfl

/-- C15: for every Approach sub-state and every detected opponent descriptor,
`state_approach_enter` called as a self-transition (from Approach, event
opponent) issues a drive command and starts the 5000 ms timer when the
sub-state computed from the descriptor differs from the one stored before the
call, and leaves the drive output and the timer untouched when they are
equal; called from Search with event opponent it always issues the drive
command and starts the timer. -/
theorem state_approach_enter_reissues (data : state_machine_data)
    (hdetected : object_detected data.common.object = true) :
    ∃ next : approach_state_e,
      next_approach_state data.common.object = some next ∧
      (data.approach.state ≠ next →
        state_approach_enter data STATE_approach STATE_EVENT_object =
          .ok (state_approach_run { data with approach := { state := next } }) ∧
        (outcome_data (state_approach_enter data STATE_approach STATE_EVENT_object)).calls =
          data.calls ++
            [collaborator_call.drive_set (spec_approach_drive_dir next) DRIVE_SPEED_FAST,
             collaborator_call.timer_start 5000] ∧
        (outcome_data (state_approach_enter data STATE_approach STATE_EVENT_object)).timer =
          some 5000) ∧
      (data.approach.state = next →
        state_approach_enter data STATE_approach STATE_EVENT_object = .ok data ∧
        (outcome_data (state_approach_enter data STATE_approach STATE_EVENT_object)).calls =
          data.calls ∧
        (outcome_data (state_approach_enter data STATE_approach STATE_EVENT_object)).timer =
          data.timer) ∧
      state_approach_enter data STATE_SEARCH STATE_EVENT_object =
        .ok (state_approach_run { data with approach := { state := next } }) ∧
      (outcome_data (state_approach_enter data STATE_SEARCH STATE_EVENT_object)).calls =
        data.calls ++
          [collaborator_call.drive_set (spec_approach_drive_dir next) DRIVE_SPEED_FAST,
           collaborator_call.timer_start 5000] ∧
      (outcome_data (state_approach_enter data STATE_SEARCH STATE_EVENT_object)).timer =
        some 5000 := by
  have hsome := next_approach_state_isSome data.common.object
  rw [hdetected, Option.isSome_iff_exists] at hsome
  obtain ⟨next, hnext⟩ := hsome
  have hcalls : (state_approach_run { data with approach := { state := next } }).calls =
      data.calls ++
        [collaborator_call.drive_set (spec_approach_drive_dir next) DRIVE_SPEED_FAST,
         collaborator_call.timer_start 5000] := by
    rw [state_approach_run_eq]
    simp [timer_start, drive_set]
  have htimer : (state_approach_run { data with approach := { state := next } }).timer =
      some 5000 := by
    rw [state_approach_run_eq]
    rfl
  have hsearch : state_approach_enter data STATE_SEARCH STATE_EVENT_object =
      .ok (state_approach_run { data with approach := { state := next } }) := by
    simp only [state_approach_enter, hnext]
  refine ⟨next, hnext, ?_, ?_, hsearch, ?_, ?_⟩
  · intro hdiff
    have hself : state_approach_enter data STATE_approach STATE_EVENT_object =
        .ok (state_approach_run { data with approach := { state := next } }) := by
      simp only [state_approach_enter, hnext, ne_eq, hdiff, not_false_eq_true, if_true]
    rw [hself]
    exact ⟨rfl, hcalls, htimer⟩
  · intro hsame
    have hself : state_approach_enter data STATE_approach STATE_EVENT_object = .ok data := by
      simp only [state_approach_enter, hnext, ne_eq, hsame, not_true_eq_false, if_false]
      rw [← hsame]
    rw [hself]
    exact ⟨rfl, rfl, rfl⟩
  · rw [hsearch]
    exact hcalls
  · rw [hsearch]
    exact htimer


/-- Witness for C15: with the descriptor `{front-left, mid}` and the stored
sub-state Forward, the self-transition computes Left, issues the wide left turn
and starts the 5000 ms timer. -/
theorem state_approach_enter_reissues_witness :
    ∃ next : approach_state_e,
      next_approach_state approach_front_left_data.common.object = some next ∧
      (approach_front_left_data.approach.state ≠ next →
        (outcome_data (state_approach_enter approach_front_left_data STATE_approach
          STATE_EVENT_object)).calls =
          approach_front_left_data.calls ++
            [collaborator_call.drive_set (spec_approach_drive_dir next) DRIVE_SPEED_FAST,
             collaborator_call.timer_start 5000]) :=
  let ⟨next, hnext, hdiff, _⟩ :=
    state_approach_enter_reissues approach_front_left_data (by decide)
  ⟨next, hnext, fun h => (hdiff h).2.1⟩

/-- C16: `next_approach_state` completes without hitting its assertion if and
only if `object_detected` holds for the descriptor; when it completes it returns
Forward exactly for the positions front and front-all, Left exactly for the
at-left positions and Right exactly for the at-right positions, and the three
cases are mutually exclusive. Hence on every tick on which the classifier emits
opponent-detected (no opponent event being pending in the internal slot), the
Approach sub-state computation is defined for the stored descriptor. -/
theorem next_approach_state_defined (obj : object) :
    ((next_approach_state obj).isSome = true ↔ object_detected obj = true) ∧
    (next_approach_state obj = some approach_STATE_FORWARD ↔
      (obj.position = object_POS_FRONT ∨ obj.position = object_POS_FRONT_ALL)) ∧
    (next_approach_state obj = some approach_STATE_LEFT ↔ object_at_left obj = true) ∧
    (next_approach_state obj = some approach_STATE_RIGHT ↔ object_at_right obj = true) ∧
    ¬ (object_at_front obj = true ∧ object_at_left obj = true) ∧
    ¬ (object_at_front obj = true ∧ object_at_right obj = true) ∧
    ¬ (object_at_left obj = true ∧ object_at_right obj = true) ∧
    (∀ (data data_out : state_machine_data) (inp : tick_input),
      data.internal_event ≠ STATE_EVENT_object →
      process_input data inp = .ok (STATE_EVENT_object, data_out) →
      (next_approach_state data_out.common.object).isSome = true) := by
  refine ⟨?_, ?_, ?_, ?_, ?_, ?_, ?_, ?_⟩
  · rw [next_approach_state_isSome]
  · rcases obj with ⟨position, range⟩
    cases position <;> cases range <;> decide
  · rcases obj with ⟨position, range⟩
    cases position <;> cases range <;> decide
  · rcases obj with ⟨position, range⟩
    cases position <;> cases range <;> decide
  · rcases obj with ⟨position, range⟩
    cases position <;> cases range <;> decide
  · rcases obj with ⟨position, range⟩
    cases position <;> cases range <;> decide
  · rcases obj with ⟨position, range⟩
    cases position <;> cases range <;> decide
  · intro data data_out inp hpending hinput
    rw [next_approach_state_isSome]
    simp only [process_input, take_internal_event, has_internal_event, bne_iff_ne] at hinput
    split_ifs at hinput with h1 h2 h3 h4 h5
    · simp at hinput
    · simp only [Except.ok.injEq, Prod.mk.injEq] at hinput
      exact absurd hinput.1 hpending
    · simp at hinput
    · simp at hinput
    · simp only [Except.ok.injEq, Prod.mk.injEq, true_and] at hinput
      rw [← hinput]
      exact h5
    · simp at hinput

/-- Witness for C16: on the tick with only the front sample within the threshold
the initial data classifies opponent-detected and the sub-state is defined. -/
theorem next_approach_state_defined_witness :
    (next_approach_state
      (object_get tick_front.ranges)).isSome = true :=
  (next_approach_state_defined object_none).2.2.2.2.2.2.2
    (state_machine_init (LOCAL_RING_BUFFER input 6))
    { state_machine_init
        (input_history_save (LOCAL_RING_BUFFER input 6)
          { object := object_get tick_front.ranges, line := LINE_NONE }) with
      common := { object := object_get tick_front.ranges, line := LINE_NONE,
                  cmd := IR_CMD_NONE } }
    tick_front (by decide) rfl

/-- C19: for every Approach sub-state and every opponent descriptor,
`state_approach_enter` called as a self-transition (from Approach) with event
timeout ends in a fatal assertion, inside `next_approach_state` when the
descriptor is not a detection and in its own `ASSERT(0)` otherwise; the data at
the assertion has the drive and timer calls and the timer of the data at the
call, so no drive command was issued and no timer started. In state Approach
the dispatcher hands a timeout to exactly this call. -/
theorem state_approach_enter_timeout_fatal (data : state_machine_data) :
    (∃ h : halt,
      state_approach_enter data STATE_approach STATE_EVENT_TIMEOUT = .error h ∧
      (h.site = in_state_approach_enter ∨ h.site = in_next_approach_state) ∧
      h.data.calls = data.calls ∧ h.data.timer = data.timer) ∧
    (∀ policies : state_policies, data.state = STATE_approach →
      process_event policies data STATE_EVENT_TIMEOUT =
        state_approach_enter data STATE_approach STATE_EVENT_TIMEOUT) := by
  constructor
  · simp only [state_approach_enter]
    cases next_approach_state data.common.object with
    | none => exact ⟨_, rfl, Or.inr rfl, rfl, rfl⟩
    | some next => exact ⟨_, rfl, Or.inl rfl, rfl, rfl⟩
  · intro policies hstate
    rw [process_event_of_row policies data STATE_EVENT_TIMEOUT
      ⟨STATE_approach, STATE_EVENT_TIMEOUT, STATE_approach⟩ (by decide) hstate.symm rfl]
    rfl

/-- Witness for C19: in state Approach with the descriptor `{front-left, mid}`
the dispatcher hands the timeout to `state_approach_enter`, which asserts. -/
theorem state_approach_enter_timeout_fatal_witness :
    outcome_site (process_event one_move_policies approach_front_left_data
      STATE_EVENT_TIMEOUT) = some in_state_approach_enter :=
  ((state_approach_enter_timeout_fatal approach_front_left_data).2 one_move_policies rfl) ▸
    (by decide)


/-! ## Theorems: states that are never left or never re-entered -/

/-- With policies that leave the top-level state alone, the state after
`state_enter` is the destination on a change of state and the state of the data
otherwise. -/
theorem state_enter_state (policies : state_policies) (hkeep : policies_keep_state policies)
    (data : state_machine_data) (from_ : state_e) (event : state_event_e) (to_ : state_e) :
    (outcome_data (state_enter policies data from_ event to_)).state =
      if from_ ≠ to_ then to_ else data.state := by
  have hentered : (if from_ ≠ to_ then { timer_clear data with state := to_ } else data).state =
      if from_ ≠ to_ then to_ else data.state := by
    split_ifs <;> rfl
  rw [← hentered]
  simp only [state_enter]
  cases to_
  · exact (hkeep _ from_ event).1
  · exact state_search_enter_state _ from_ event
  · exact state_approach_enter_state _ from_ event
  · exact (hkeep _ from_ event).2.1
  · exact (hkeep _ from_ event).2.2

/-- The state after the scan of `process_event` is the state before it or the
destination of a row that matches the state and the event. -/
theorem process_event_scan_state (policies : state_policies)
    (hkeep : policies_keep_state policies) (data : state_machine_data)
    (next_event : state_event_e) (rows : List state_transition) :
    (outcome_data (process_event_scan policies data next_event rows)).state = data.state ∨
    ∃ row ∈ rows, row.from_ = data.state ∧ row.event = next_event ∧
      (outcome_data (process_event_scan policies data next_event rows)).state = row.to_ := by
  induction rows with
  | nil => exact Or.inl rfl
  | cons first rest ih =>
    rw [process_event_scan]
    by_cases hmatch : data.state = first.from_ ∧ next_event = first.event
    · rw [if_pos hmatch, state_enter_state policies hkeep]
      by_cases hsame : first.from_ = first.to_
      · left
        simp [hsame]
      · right
        exact ⟨first, List.mem_cons_self _ _, hmatch.1.symm, hmatch.2.symm, by simp [hsame]⟩
    · rw [if_neg hmatch]
      rcases ih with hstay | ⟨row, hrow, hfrom, hevent, hto⟩
      · exact Or.inl hstay
      · exact Or.inr ⟨row, List.mem_cons_of_mem _ hrow, hfrom, hevent, hto⟩

/-- The function `process_input` always returns an event and leaves the
top-level state alone. -/
theorem process_input_state (data : state_machine_data) (inp : tick_input) :
    ∃ (next_event : state_event_e) (data_out : state_machine_data),
      process_input data inp = .ok (next_event, data_out) ∧ data_out.state = data.state := by
  unfold process_input
  simp only [take_internal_event]
  split_ifs <;> exact ⟨_, _, rfl, rfl⟩

/-- The state after one tick is the state before it or the destination of a row
whose source is the state before it. -/
theorem state_machine_tick_state (policies : state_policies)
    (hkeep : policies_keep_state policies) (data : state_machine_data) (inp : tick_input) :
    (outcome_data (state_machine_tick policies data inp)).state = data.state ∨
    ∃ row ∈ state_transitions, row.from_ = data.state ∧
      (outcome_data (state_machine_tick policies data inp)).state = row.to_ := by
  obtain ⟨next_event, data_out, hinput, hstate⟩ := process_input_state data inp
  simp only [state_machine_tick, hinput, process_event]
  rcases process_event_scan_state policies hkeep data_out next_event state_transitions with
    hstay | ⟨row, hrow, hfrom, _, hto⟩
  · exact Or.inl (hstay.trans hstate)
  · exact Or.inr ⟨row, hrow, hfrom.trans hstate, hto⟩

/-- A set of states that no row of `state_transitions` leads out of is never
left, whatever the inputs of the ticks are. -/
theorem state_machine_ticks_closed (policies : state_policies)
    (hkeep : policies_keep_state policies) (closed : state_e → Prop)
    (hclosed : ∀ row ∈ state_transitions, closed row.from_ → closed row.to_)
    (inputs : List tick_input) :
    ∀ data : state_machine_data, closed data.state →
      closed (outcome_data (state_machine_ticks policies data inputs)).state := by
  induction inputs with
  | nil => exact fun data hdata => hdata
  | cons inp rest ih =>
    intro data hdata
    have htick : closed (outcome_data (state_machine_tick policies data inp)).state := by
      rcases state_machine_tick_state policies hkeep data inp with hstay | ⟨row, hrow, hfrom, hto⟩
      · rw [hstay]
        exact hdata
      · rw [hto]
        exact hclosed row hrow (hfrom ▸ hdata)
    rw [state_machine_ticks]
    cases htick_eq : state_machine_tick policies data inp with
    | error h =>
      rw [htick_eq] at htick
      exact htick
    | ok data_next =>
      rw [htick_eq] at htick
      exact ih data_next htick


/-- Every row of `state_transitions` whose source is Manual has destination
Manual. -/
theorem state_transitions_from_manual :
    ∀ row ∈ state_transitions, row.from_ = STATE_MANUAL → row.to_ = STATE_MANUAL := by
  decide

/-- No row of `state_transitions` with a source other than Wait has destination
Wait. -/
theorem state_transitions_into_wait :
    ∀ row ∈ state_transitions, row.from_ ≠ STATE_WAIT → row.to_ ≠ STATE_WAIT := by
  decide

/-- C21: every row of `state_transitions` whose source is Manual has destination
Manual; so, with entry actions that leave the top-level state alone, once the
current state is Manual it is Manual after every event given to `process_event`
(command, none, line and opponent are accepted and run the Manual entry action
as a self-transition; timeout and finished end in the final `ASSERT(0)`) and
after any number of ticks. Likewise no row with a source other than Wait has
destination Wait, so once the state is not Wait it is never Wait again. -/
theorem manual_absorbing_wait_not_reentered (policies : state_policies)
    (hkeep : policies_keep_state policies) :
    (∀ row ∈ state_transitions, row.from_ = STATE_MANUAL → row.to_ = STATE_MANUAL) ∧
    (∀ (data : state_machine_data) (event : state_event_e), data.state = STATE_MANUAL →
      (outcome_data (process_event policies data event)).state = STATE_MANUAL) ∧
    (∀ (data : state_machine_data) (event : state_event_e), data.state = STATE_MANUAL →
      (event = STATE_EVENT_COMMAND ∨ event = STATE_EVENT_NONE ∨ event = STATE_EVENT_LINE ∨
        event = STATE_EVENT_object) →
      process_event policies data event =
        policies.state_manual_enter data STATE_MANUAL event) ∧
    (∀ (data : state_machine_data) (event : state_event_e), data.state = STATE_MANUAL →
      (event = STATE_EVENT_TIMEOUT ∨ event = STATE_EVENT_FINISHED) →
      process_event policies data event = .error ⟨in_process_event, data⟩) ∧
    (∀ (data : state_machine_data) (inputs : List tick_input), data.state = STATE_MANUAL →
      (outcome_data (state_machine_ticks policies data inputs)).state = STATE_MANUAL) ∧
    (∀ row ∈ state_transitions, row.from_ ≠ STATE_WAIT → row.to_ ≠ STATE_WAIT) ∧
    (∀ (data : state_machine_data) (event : state_event_e), data.state ≠ STATE_WAIT →
      (outcome_data (process_event policies data event)).state ≠ STATE_WAIT) ∧
    (∀ (data : state_machine_data) (inputs : List tick_input), data.state ≠ STATE_WAIT →
      (outcome_data (state_machine_ticks policies data inputs)).state ≠ STATE_WAIT) := by
  refine ⟨state_transitions_from_manual, ?_, ?_, ?_, ?_, state_transitions_into_wait, ?_, ?_⟩
  · intro data event hstate
    rcases process_event_scan_state policies hkeep data event state_transitions with
      hstay | ⟨row, hrow, hfrom, _, hto⟩
    · exact hstay.trans hstate
    · exact hto.trans (state_transitions_from_manual row hrow (hfrom.trans hstate))
  · intro data event hstate hevent
    have hrow : (⟨STATE_MANUAL, event, STATE_MANUAL⟩ : state_transition) ∈ state_transitions := by
      rcases hevent with h | h | h | h <;> subst h <;> decide
    rw [process_event_of_row policies data event _ hrow hstate.symm rfl]
    rfl
  · intro data event hstate hevent
    rcases hevent with h | h <;> subst h <;>
      simp [process_event, state_transitions, process_event_scan, hstate]
  · intro data inputs hstate
    exact state_machine_ticks_closed policies hkeep (fun s => s = STATE_MANUAL)
      state_transitions_from_manual inputs data hstate
  · intro data event hstate
    rcases process_event_scan_state policies hkeep data event state_transitions with
      hstay | ⟨row, hrow, hfrom, _, hto⟩
    · rw [show (outcome_data (process_event policies data event)).state = data.state from hstay]
      exact hstate
    · rw [show (outcome_data (process_event policies data event)).state = row.to_ from hto]
      exact state_transitions_into_wait row hrow (hfrom ▸ hstate)
  · intro data inputs hstate
    exact state_machine_ticks_closed policies hkeep (fun s => s ≠ STATE_WAIT)
      state_transitions_into_wait inputs data hstate

/-- Witness for C21: with the policies modelled from the spec, the run command,
line, timeout, command reaches Manual and stays there over two more ticks with
a command; and one tick after Wait was left by a command the state is not
Wait. -/
theorem manual_absorbing_wait_not_reentered_witness :
    (outcome_data (state_machine_ticks one_move_policies
      (outcome_data (state_machine_run one_move_policies
        [tick_quiet LINE_NONE (IR_CMD 1), tick_quiet (LINE_AT 1) IR_CMD_NONE, tick_timeout,
         tick_quiet LINE_NONE (IR_CMD 1)]))
      [tick_quiet LINE_NONE (IR_CMD 2), tick_quiet (LINE_AT 1) (IR_CMD 2)])).state =
      STATE_MANUAL ∧
    (outcome_data (state_machine_ticks one_move_policies
      (outcome_data (state_machine_run one_move_policies [tick_quiet LINE_NONE (IR_CMD 1)]))
      [tick_quiet LINE_NONE IR_CMD_NONE])).state ≠ STATE_WAIT :=
  ⟨(manual_absorbing_wait_not_reentered one_move_policies
      (spec_policies_keep_state _ _)).2.2.2.2.1 _ _ (by decide),
   (manual_absorbing_wait_not_reentered one_move_policies
      (spec_policies_keep_state _ _)).2.2.2.2.2.2.2 _ _ (by decide)⟩


end AutBot
